import Mathlib

/-!
Shallow embedding of the Dialogue State & Response Selection Engine of the
saas-ai-agent repository (Cloudflare-worker JavaScript), together with proofs
about the embedded operations.

Sources embedded here:
* `src/ai-processor-worker.js` — `ConversationFlowManager` and
  `EnhancedConversationStateManager` (slot extraction, completion tracking,
  flow responses, conversation-state lifecycle);
* `src/voice-agent-worker.js` — `ResponseAudioMatcher` and
  `IntelligentFAQMatcher`;
* `src/unnamed/part_000` — `EnhancedSMSFAQMatcher`;
* `src/database-worker.js` — `getFAQMatch`.

Modelling conventions:
* JavaScript strings are Lean `String`s (ASCII is what the data uses; the
  embedded `toLowerCase`, `trim` and character classes are the ASCII parts of
  their JavaScript counterparts, which is what every literal in the source
  exercises).
* A JavaScript object field that may be `undefined` or an empty string is an
  `Option String`; JavaScript truthiness of such a field is `truthy` below
  (`undefined`/missing and `""` are falsy, every other string truthy).
* The regular expressions of the source are embedded either through the small
  backtracking engine `reM` below (patterns whose greedy/backtracking
  behaviour matters) or as direct scanning functions for the patterns whose
  quantifiers are forced (digit runs against disjoint separator classes),
  where the scan provably coincides with the leftmost-match greedy semantics.
* `fetch`/store calls are modelled by explicit inputs: the store contents as
  a list of records, and Booleans saying whether a call raises.
-/

/-! ## Basic string utilities (models of the JavaScript string operations) -/

/-- ASCII lower-case letter, the `a-z` part of the source character classes. -/
def asciiLowerCh (c : Char) : Bool := 'a' ≤ c && c ≤ 'z'

/-- ASCII upper-case letter, the `A-Z` part of the source character classes. -/
def asciiUpperCh (c : Char) : Bool := 'A' ≤ c && c ≤ 'Z'

/-- The `[a-zA-Z]` character class of the source regexes. -/
def asciiAlpha (c : Char) : Bool := asciiLowerCh c || asciiUpperCh c

/-- The `\d` character class. -/
def asciiDigit (c : Char) : Bool := '0' ≤ c && c ≤ '9'

/-- The ASCII part of the JavaScript `\s` class (space, tab, LF, CR, VT, FF). -/
def jsSpace (c : Char) : Bool :=
  c == ' ' || c == '\t' || c == '\n' || c == '\r' || c == '\x0b' || c == '\x0c'

/-- Model of `String.prototype.toLowerCase` (ASCII case mapping). -/
def lowerStr (s : String) : String := String.mk (s.data.map Char.toLower)

/-- `needle` is a prefix of `hay` (character lists). -/
def startsL : List Char → List Char → Bool
  | [], _ => true
  | _ :: _, [] => false
  | a :: as, b :: bs => a == b && startsL as bs

/-- `needle` occurs as a contiguous substring of `hay` (character lists). -/
def subL (needle : List Char) : List Char → Bool
  | [] => startsL needle []
  | c :: rest => startsL needle (c :: rest) || subL needle rest

/-- Model of `hay.includes(needle)` (JavaScript `String.prototype.includes`). -/
def strHas (hay needle : String) : Bool := subL needle.data hay.data

/-- Model of `String.prototype.trim` (strip leading/trailing whitespace). -/
def trimJS (s : String) : String :=
  String.mk (((s.data.dropWhile jsSpace).reverse.dropWhile jsSpace).reverse)

/-- JavaScript truthiness of an optional string field: `undefined` and `""`
are falsy, every other string is truthy. -/
def truthy : Option String → Bool
  | none => false
  | some s => !s.data.isEmpty

/-- Rendering of an optional string inside a template literal: JavaScript
prints `undefined` for a missing value. -/
def jsStr : Option String → String
  | none => "undefined"
  | some s => s

/-- Model of `s.charAt(0).toUpperCase() + s.slice(1)` from the brand matcher. -/
def capitalizeJS (s : String) : String :=
  match s.data with
  | [] => ""
  | c :: rest => String.mk (c.toUpper :: rest)

/-- Last-write-wins merge of one matcher result into the prior slot value:
a found value overwrites, a not-found result leaves the prior value. -/
def overwriteIfSome (found prior : Option String) : Option String :=
  match found with
  | some v => some v
  | none => prior

/-! ## Slot set (the `conversation_data` object of the source) -/

/-- The slot set accumulated by `EnhancedConversationStateManager
.extractInformation`: the nine required fields, the two auxiliary fields
(`lastConfirmation`, `issueLocation`) and the recomputed
`completionPercentage`. -/
@[ext]
structure ConversationData where
  applianceType : Option String
  issueDescription : Option String
  applianceMake : Option String
  customerName : Option String
  streetAddress : Option String
  city : Option String
  zipCode : Option String
  callbackNumber : Option String
  preferredTime : Option String
  lastConfirmation : Option String
  issueLocation : Option String
  completionPercentage : Nat
deriving DecidableEq, Repr

/-- The empty slot set (`conversation_data: {}` in the source, with the
`completionPercentage` of a fresh record read as 0 by `generateResponse`). -/
def emptyConversationData : ConversationData :=
  ⟨none, none, none, none, none, none, none, none, none, none, none, 0⟩

/-- Presence (JavaScript truthiness) of each of the nine required fields, in
the order of the `requiredFields` array of the source. City and zip code are
two independent entries of this list. -/
def requiredPresentList (d : ConversationData) : List Bool :=
  [truthy d.applianceType, truthy d.issueDescription, truthy d.applianceMake,
   truthy d.customerName, truthy d.streetAddress, truthy d.city,
   truthy d.zipCode, truthy d.callbackNumber, truthy d.preferredTime]

/-- `completedFields.length` of the source: how many of the nine required
fields are present. -/
def countRequired (d : ConversationData) : Nat :=
  (requiredPresentList d).count true

/-- `Math.round((n / 9) * 100)` for `0 ≤ n`: the IEEE double computation of
the source is exact enough that it equals rounding the rational `100·n/9`
half-up, which for naturals is `(200·n + 9) / 18`. -/
def jsRoundPct (n : Nat) : Nat := (200 * n + 9) / 18

/-! ## Category matchers (`for (const [value, keywords] of Object.entries(...))`)

Each category loop of `extractInformation` walks an insertion-ordered table;
inside one entry the first keyword hit assigns the entry's value, and the
outer loop stops as soon as the field is truthy — including when it was
already truthy from the prior slot set. -/

/-- One category loop. `cond` is the per-keyword hit test (for most tables
`msgLower.includes(keyword)`, for `issueLocation` the conjunction with the
leak/water guard), `f` the value transformation at the assignment (identity,
or capitalisation for the brand table). -/
def scanTable (cond : String → Bool) (f : String → String) :
    List (String × List String) → Option String → Option String
  | [], prior => prior
  | (v, ks) :: rest, prior =>
      let cur := if ks.any cond then some (f v) else prior
      if truthy cur then cur else scanTable cond f rest cur

/-- The `appliances` table of `extractInformation`, in source order. -/
def appliancesTable : List (String × List String) :=
  [("washer", ["washer", "washing machine", "laundry"]),
   ("dryer", ["dryer", "drying machine"]),
   ("dishwasher", ["dishwasher", "dish washer"]),
   ("refrigerator", ["refrigerator", "fridge", "freezer"]),
   ("oven", ["oven", "stove", "range", "cooktop"]),
   ("microwave", ["microwave"]),
   ("garbage_disposal", ["garbage disposal", "disposal", "disposer"]),
   ("air_conditioner", ["ac", "air conditioner", "air conditioning", "hvac"])]

/-- The `makes` table of `extractInformation`, in source order. -/
def makesTable : List (String × List String) :=
  [("whirlpool", ["whirlpool"]),
   ("ge", ["ge", "general electric"]),
   ("samsung", ["samsung"]),
   ("lg", ["lg"]),
   ("maytag", ["maytag"]),
   ("frigidaire", ["frigidaire"]),
   ("kenmore", ["kenmore"]),
   ("bosch", ["bosch"]),
   ("kitchenaid", ["kitchenaid", "kitchen aid"]),
   ("electrolux", ["electrolux"])]

/-- The `issues` table of `extractInformation`, in source order. -/
def issuesTable : List (String × List String) :=
  [("leaking", ["leaking", "leak", "water coming out", "dripping", "flooding"]),
   ("not_starting", ["not starting", "won't start", "not turning on", "dead", "not working"]),
   ("noisy", ["noisy", "loud", "making noise", "banging", "grinding", "squeaking"]),
   ("not_heating", ["not heating", "cold", "not hot", "no heat"]),
   ("not_cooling", ["not cooling", "warm", "not cold", "not freezing"]),
   ("not_spinning", ["not spinning", "not turning", "won't spin"]),
   ("not_draining", ["not draining", "water sitting", "standing water", "won't drain"]),
   ("not_cleaning", ["not cleaning", "dishes dirty", "not washing"]),
   ("door_issue", ["door won't close", "door stuck", "door problem"]),
   ("control_panel", ["buttons not working", "display not working", "controls broken"])]

/-- The `confirmationPatterns` table of `extractInformation`. -/
def confirmationsTable : List (String × List String) :=
  [("yes", ["yes", "yeah", "yep", "sure", "okay", "ok", "correct", "right", "that's right"]),
   ("no", ["no", "nope", "not right", "incorrect", "wrong", "that's wrong"])]

/-- The `locationPatterns` table of `extractInformation`. -/
def locationsTable : List (String × List String) :=
  [("front", ["front", "door", "front door"]),
   ("bottom", ["bottom", "underneath", "under"]),
   ("back", ["back", "behind", "rear"]),
   ("inside", ["inside", "interior"]),
   ("hose", ["hose", "connection", "pipe"])]

/-- A sanity evaluation of one category loop. -/
example :
    scanTable (fun k => strHas "my dishwasher broke" k) id appliancesTable none =
      some "washer" := by decide

/-! ## A small backtracking regex engine

Used for the customer-name and street-address patterns of
`extractInformation`, whose greedy character-class quantifiers backtrack
against literal suffixes. Alternation is ordered, quantifiers are greedy,
matching is leftmost-first — the JavaScript `RegExp` semantics for these
patterns. A single capture group per pattern occurs in the source, so the
engine carries one optional capture. `fuel` bounds the recursion depth; all
starred subterms below consume at least one character per iteration, so the
generous bound in `reTryAt` never truncates a search. -/

inductive RE where
  | eps : RE
  | cls : (Char → Bool) → RE
  | seq : RE → RE → RE
  | alt : RE → RE → RE
  | star : RE → RE
  | opt : RE → RE
  | grp : RE → RE
  | eon : RE

/-- Structural size of a pattern, used for the fuel bound. -/
def sizeRE : RE → Nat
  | RE.eps => 1
  | RE.cls _ => 1
  | RE.seq a b => sizeRE a + sizeRE b + 1
  | RE.alt a b => sizeRE a + sizeRE b + 1
  | RE.star a => sizeRE a + 1
  | RE.opt a => sizeRE a + 1
  | RE.grp a => sizeRE a + 1
  | RE.eon => 1

/-- Backtracking matcher in continuation style. `k` receives the remaining
input and the capture recorded so far; the first continuation success wins,
alternatives and quantifier choices are tried in the greedy JavaScript
order. -/
def reM : Nat → RE → List Char → Option (List Char) →
    (List Char → Option (List Char) → Option (List Char × Option (List Char))) →
    Option (List Char × Option (List Char))
  | 0, _, _, _, _ => none
  | Nat.succ fuel, r, inp, cap, k =>
    match r with
    | RE.eps => k inp cap
    | RE.cls p =>
        match inp with
        | [] => none
        | c :: rest => if p c then k rest cap else none
    | RE.seq a b => reM fuel a inp cap (fun rest cap2 => reM fuel b rest cap2 k)
    | RE.alt a b =>
        match reM fuel a inp cap k with
        | some res => some res
        | none => reM fuel b inp cap k
    | RE.opt a =>
        match reM fuel a inp cap k with
        | some res => some res
        | none => k inp cap
    | RE.star a =>
        match reM fuel a inp cap (fun rest cap2 =>
            if rest.length < inp.length then reM fuel (RE.star a) rest cap2 k
            else none) with
        | some res => some res
        | none => k inp cap
    | RE.grp a =>
        reM fuel a inp cap (fun rest _ =>
          k rest (some (inp.take (inp.length - rest.length))))
    | RE.eon =>
        match inp with
        | [] => k inp cap
        | _ :: _ => none

/-- Try a match anchored at the start of `s`; on success return the matched
span (`match[0]`) and the capture (`match[1]`). -/
def reTryAt (r : RE) (s : List Char) : Option (List Char × Option (List Char)) :=
  match reM ((sizeRE r + 2) * (s.length + 2)) r s none
      (fun rest cap => some (rest, cap)) with
  | some (rest, cap) => some (s.take (s.length - rest.length), cap)
  | none => none

/-- Leftmost match: try each start position in order (`RegExp.exec` /
`String.match` without the global flag). -/
def reSearch (r : RE) : List Char → Option (List Char × Option (List Char))
  | [] => reTryAt r []
  | c :: rest =>
      match reTryAt r (c :: rest) with
      | some res => some res
      | none => reSearch r rest

/-- One-or-more, greedy (`+`). -/
def plusR (r : RE) : RE := RE.seq r (RE.star r)

/-- A case-insensitive literal (the `i` flag of the source patterns applied
to a fixed word). -/
def litCI (s : String) : RE :=
  s.data.foldr (fun c acc => RE.seq (RE.cls (fun x => x.toLower == c.toLower)) acc) RE.eps

/-- Ordered alternation of case-insensitive literals. -/
def altLits : List String → RE
  | [] => RE.cls (fun _ => false)
  | [s] => litCI s
  | s :: rest => RE.alt (litCI s) (altLits rest)

/-- `[a-zA-Z]` as a pattern atom. -/
def clsAlpha : RE := RE.cls asciiAlpha

/-- `\s` as a pattern atom. -/
def clsSpace : RE := RE.cls jsSpace

/-- `\d` as a pattern atom. -/
def clsDigit : RE := RE.cls asciiDigit

/-- `[a-zA-Z\s]` as a pattern atom. -/
def clsAlphaSpace : RE := RE.cls (fun c => asciiAlpha c || jsSpace c)

/-! ### The customer-name patterns of `extractInformation` -/

/-- Pattern `/(?:i'm|my name is|call me|this is)\s+([a-zA-Z]+(?:\s+[a-zA-Z]+)?)/i`. -/
def nameRE1 : RE :=
  RE.seq (altLits ["i'm", "my name is", "call me", "this is"])
    (RE.seq (plusR clsSpace)
      (RE.grp (RE.seq (plusR clsAlpha)
        (RE.opt (RE.seq (plusR clsSpace) (plusR clsAlpha))))))

/-- Pattern `/^([a-zA-Z]+\s+[a-zA-Z]+)$/` (anchored both ends). -/
def nameRE2 : RE :=
  RE.seq (RE.grp (RE.seq (plusR clsAlpha) (RE.seq (plusR clsSpace) (plusR clsAlpha)))) RE.eon

/-- Pattern `/hi,?\s+([a-zA-Z]+\s+[a-zA-Z]+)/i`. -/
def nameRE3 : RE :=
  RE.seq (litCI "hi")
    (RE.seq (RE.opt (RE.cls (fun c => c == ',')))
      (RE.seq (plusR clsSpace)
        (RE.grp (RE.seq (plusR clsAlpha) (RE.seq (plusR clsSpace) (plusR clsAlpha))))))

/-- The capture of a pattern run over the whole message. -/
def reCapture (res : Option (List Char × Option (List Char))) : Option String :=
  match res with
  | some (_, some cap) => some (String.mk cap)
  | _ => none

/-- Validation applied to a name candidate: `name.length >= 2 &&
name.length <= 50 && /^[a-zA-Z\s]+$/.test(name)`. -/
def validNameStr (n : String) : Bool :=
  2 ≤ n.length && n.length ≤ 50 &&
    (!n.data.isEmpty && n.data.all (fun c => asciiAlpha c || jsSpace c))

/-- One iteration of the name-pattern loop: trim the capture and keep it only
when it passes validation (else the loop moves to the next pattern). -/
def nameCandidate (cap : Option String) : Option String :=
  match cap with
  | some raw =>
      let n := trimJS raw
      if validNameStr n then some n else none
  | none => none

/-- The customer-name extraction loop over the three patterns. -/
def extractName (message : String) : Option String :=
  match nameCandidate (reCapture (reSearch nameRE1 message.data)) with
  | some n => some n
  | none =>
    match nameCandidate (reCapture (reTryAt nameRE2 message.data)) with
    | some n => some n
    | none => nameCandidate (reCapture (reSearch nameRE3 message.data))

/-! ### The street-address patterns of `extractInformation` -/

/-- Pattern `/(\d+\s+[a-zA-Z\s]+(?:street|st|avenue|ave|drive|dr|road|rd|lane|ln|way|court|ct|circle|cir|place|pl))/i`. -/
def addrRE1 : RE :=
  RE.grp (RE.seq (plusR clsDigit)
    (RE.seq (plusR clsSpace)
      (RE.seq (plusR clsAlphaSpace)
        (altLits ["street", "st", "avenue", "ave", "drive", "dr", "road", "rd",
                  "lane", "ln", "way", "court", "ct", "circle", "cir", "place", "pl"]))))

/-- Pattern `/(?:address is|live at|located at)\s+([^,\n]+)/i`. -/
def addrRE2 : RE :=
  RE.seq (altLits ["address is", "live at", "located at"])
    (RE.seq (plusR clsSpace)
      (RE.grp (plusR (RE.cls (fun c => !(c == ',' || c == '\n'))))))

/-- `\d{1,5}`, greedy, as nested optional digits. -/
def digits1to5 : RE :=
  RE.seq clsDigit (RE.opt (RE.seq clsDigit (RE.opt (RE.seq clsDigit
    (RE.opt (RE.seq clsDigit (RE.opt clsDigit)))))))

/-- Pattern `/(\d{1,5}\s+[a-zA-Z\s,]+)/i`. -/
def addrRE3 : RE :=
  RE.grp (RE.seq digits1to5
    (RE.seq (plusR clsSpace)
      (plusR (RE.cls (fun c => asciiAlpha c || jsSpace c || c == ',')))))

/-- Validation applied to an address candidate: trimmed length in `[5, 100]`. -/
def validAddrStr (a : String) : Bool := 5 ≤ a.length && a.length ≤ 100

/-- One iteration of the address-pattern loop. -/
def addrCandidate (cap : Option String) : Option String :=
  match cap with
  | some raw =>
      let a := trimJS raw
      if validAddrStr a then some a else none
  | none => none

/-- The street-address extraction loop over the three patterns. -/
def extractAddress (message : String) : Option String :=
  match addrCandidate (reCapture (reSearch addrRE1 message.data)) with
  | some a => some a
  | none =>
    match addrCandidate (reCapture (reSearch addrRE2 message.data)) with
    | some a => some a
    | none => addrCandidate (reCapture (reSearch addrRE3 message.data))

/-- A sanity evaluation of the engine on the first name pattern. -/
example : extractName "my name is John Smith" = some "John Smith" := by decide

/-- A sanity evaluation of the engine on the first address pattern. -/
example : extractAddress "I live on 123 Main Street here" = some "123 Main Street" := by
  decide

/-! ### City/zip, phone and time matchers as direct scanners

These patterns quantify digit runs against disjoint neighbour classes, so
their backtracking is forced and a direct scan is extensionally the regex:
an optional separator that was taken greedily can never be profitably given
back (the separator class and `\d` are disjoint), and a greedy character
run before `\s+`/a digit run backtracks exactly to the split the scan
computes. Leftmost semantics = try every start position in order. -/

/-- Exactly `n` digits (`\d{n}`): the consumed digits and the rest. -/
def takeDigitsN : Nat → List Char → Option (List Char × List Char)
  | 0, l => some ([], l)
  | _ + 1, [] => none
  | n + 1, c :: rest =>
      if asciiDigit c then
        match takeDigitsN n rest with
        | some (d, r) => some (c :: d, r)
        | none => none
      else none

/-- The `[a-zA-Z\s]` class of the city capture. -/
def cityClassCh (c : Char) : Bool := asciiAlpha c || jsSpace c

/-- For the pattern `/([a-zA-Z\s]+),?\s+(\d{5})/` with the leading class run
cut at length `a`: optional comma (greedy), `\s+` (greedy), then five
digits. -/
def cityZipTail (l : List Char) : Option (List Char) :=
  let sp := l.takeWhile jsSpace
  if sp.isEmpty then none
  else
    match takeDigitsN 5 (l.drop sp.length) with
    | some (d, _) => some d
    | none => none

/-- Backtrack the greedy `[a-zA-Z\s]+` capture from length `a` downwards;
at each length try the comma alternative first (greedy `,?`). -/
def cityZipTryA (cs : List Char) : Nat → Option (List Char × List Char)
  | 0 => none
  | a + 1 =>
      let capA := cs.take (a + 1)
      let afterA := cs.drop (a + 1)
      let withComma :=
        match afterA with
        | ',' :: r2 =>
            match cityZipTail r2 with
            | some d => some (capA, d)
            | none => none
        | _ => none
      match withComma with
      | some res => some res
      | none =>
          match cityZipTail afterA with
          | some d => some (capA, d)
          | none => cityZipTryA cs a

/-- The city/zip pattern anchored at one start position. -/
def cityZipAt (cs : List Char) : Option (List Char × List Char) :=
  cityZipTryA cs (cs.takeWhile cityClassCh).length

/-- Leftmost match of `/([a-zA-Z\s]+),?\s+(\d{5})/` over the message:
the two captures (raw city run, five zip digits). -/
def cityZipSearch : List Char → Option (List Char × List Char)
  | [] => none
  | c :: rest =>
      match cityZipAt (c :: rest) with
      | some res => some res
      | none => cityZipSearch rest

/-- `message.match(/([a-zA-Z\s]+),?\s+(\d{5})/)`, returning the two capture
groups as strings. -/
def extractCityZip (message : String) : Option (String × String) :=
  match cityZipSearch message.data with
  | some (c, z) => some (String.mk c, String.mk z)
  | none => none

/-- The `[-.\s]` separator class of the phone patterns. -/
def sepChar (c : Char) : Bool := c == '-' || c == '.' || jsSpace c

/-- `[-.\s]?`, greedy: take the separator when present. -/
def optSep (l : List Char) : List Char × List Char :=
  match l with
  | c :: rest => if sepChar c then ([c], rest) else ([], l)
  | [] => ([], [])

/-- `/(\d{3}[-.\s]?\d{3}[-.\s]?\d{4})/` anchored at one position; returns
`match[0]`. -/
def phone1At (l : List Char) : Option (List Char) :=
  match takeDigitsN 3 l with
  | none => none
  | some (d1, r1) =>
      let s1 := optSep r1
      match takeDigitsN 3 s1.2 with
      | none => none
      | some (d2, r3) =>
          let s2 := optSep r3
          match takeDigitsN 4 s2.2 with
          | none => none
          | some (d3, _) => some (d1 ++ s1.1 ++ d2 ++ s2.1 ++ d3)

/-- `/\((\d{3})\)\s?(\d{3})[-.\s]?(\d{4})/` anchored at one position;
returns `match[0]` (parentheses included). -/
def phone2At (l : List Char) : Option (List Char) :=
  match l with
  | '(' :: r0 =>
      match takeDigitsN 3 r0 with
      | some (d1, r1) =>
          match r1 with
          | ')' :: r2 =>
              let sp :=
                match r2 with
                | c :: rest => if jsSpace c then ([c], rest) else (([] : List Char), r2)
                | [] => ([], [])
              match takeDigitsN 3 sp.2 with
              | some (d2, r4) =>
                  let s2 := optSep r4
                  match takeDigitsN 4 s2.2 with
                  | some (d3, _) => some ('(' :: (d1 ++ ')' :: (sp.1 ++ d2 ++ s2.1 ++ d3)))
                  | none => none
              | none => none
          | _ => none
      | none => none
  | _ => none

/-- Leftmost scan for one anchored phone matcher. -/
def scanFor (atPos : List Char → Option (List Char)) : List Char → Option (List Char)
  | [] => atPos []
  | c :: rest =>
      match atPos (c :: rest) with
      | some m => some m
      | none => scanFor atPos rest

/-- The phone-pattern loop of `extractInformation`: first pattern with a
match anywhere in the message wins; the result is `phoneMatch[0]`. -/
def extractPhoneRaw (message : String) : Option (List Char) :=
  match scanFor phone1At message.data with
  | some m => some m
  | none => scanFor phone2At message.data

/-- `phoneMatch[0].replace(/[^\d]/g, '')` followed by the ten-digit `+1`
normalisation of the source. -/
def normalizePhone (m0 : List Char) : String :=
  let digits := String.mk (m0.filter asciiDigit)
  if digits.length == 10 then "+1" ++ digits else digits

/-- `/(\d{1,2})\s*(am|pm)/i` anchored at one position; returns `match[0]`.
The digit run is greedy (two digits when available), `\s*` greedy; both are
forced since digits are not spaces and `a`/`p` are neither. -/
def time1At (l : List Char) : Option (List Char) :=
  match l with
  | c1 :: r1 =>
      if asciiDigit c1 then
        let dsplit :=
          match r1 with
          | c2 :: r2 => if asciiDigit c2 then ([c1, c2], r2) else ([c1], r1)
          | [] => ([c1], ([] : List Char))
        let sp := dsplit.2.takeWhile jsSpace
        match dsplit.2.drop sp.length with
        | a :: m :: _ =>
            if (a.toLower == 'a' || a.toLower == 'p') && m.toLower == 'm' then
              some (dsplit.1 ++ sp ++ [a, m])
            else none
        | _ => none
      else none
  | [] => none

/-- A case-insensitive literal anchored at one position, keeping the
original-case characters of the input (`match[0]`). -/
def litCIAt (lit : List Char) : List Char → Option (List Char)
  | l =>
    match lit, l with
    | [], _ => some []
    | _ :: _, [] => none
    | a :: as, b :: bs =>
        if a.toLower == b.toLower then
          match litCIAt as bs with
          | some r => some (b :: r)
          | none => none
        else none

/-- Ordered alternation of case-insensitive literals at one position. -/
def altLitAt (lits : List (List Char)) (l : List Char) : Option (List Char) :=
  match lits with
  | [] => none
  | lit :: rest =>
      match litCIAt lit l with
      | some m => some m
      | none => altLitAt rest l

/-- The time-pattern loop of `extractInformation`: four patterns in order;
the first three yield `match[0]`, the urgency pattern yields the constant
`'urgent'`. -/
def extractTime (message : String) : Option String :=
  match scanFor time1At message.data with
  | some m => some (String.mk m)
  | none =>
    match scanFor (altLitAt [("morning").data, ("afternoon").data, ("evening").data]) message.data with
    | some m => some (String.mk m)
    | none =>
      match scanFor (altLitAt [("today").data, ("tomorrow").data, ("this week").data, ("next week").data]) message.data with
      | some m => some (String.mk m)
      | none =>
        match scanFor (altLitAt [("asap").data, ("urgent").data, ("emergency").data, ("right away").data]) message.data with
        | some _ => some "urgent"
        | none => none

/-- Sanity: the city/zip scanner; the class run is greedy from the leftmost
viable start, exactly as the JavaScript pattern behaves. -/
example : extractCityZip "I am in Austin, 78701 now" = some ("I am in Austin", "78701") := by
  decide

/-- Sanity: the city/zip scanner on a bare `city zip` message. -/
example : extractCityZip "Austin 78701" = some ("Austin", "78701") := by decide

/-- Sanity: the first phone pattern with mixed separators. -/
example : extractPhoneRaw "call 512-555 1234 ok" = some ("512-555 1234").data := by
  decide

/-- Sanity: the second phone pattern (parenthesised area code). -/
example : extractPhoneRaw "call (512) 555-1234 ok" = some ("(512) 555-1234").data := by
  decide

/-- Sanity: the clock time pattern keeps the original case. -/
example : extractTime "come at 10 AM tomorrow" = some "10 AM" := by decide

/-! ## `EnhancedConversationStateManager.extractInformation`

The source mutates a copy of the prior slot set field by field; no matcher
reads any field other than the one it owns (the category loops consult only
their own field for the early break), so the sequential mutations are the
per-field updates below applied to the prior values, with the completion
percentage recomputed from the nine required fields at the end. -/

/-- The appliance-type category loop over the lower-cased message. -/
def stepAppliance (msgLower : String) (prior : Option String) : Option String :=
  scanTable (fun k => strHas msgLower k) id appliancesTable prior

/-- The brand category loop; the assigned value is capitalised. -/
def stepMake (msgLower : String) (prior : Option String) : Option String :=
  scanTable (fun k => strHas msgLower k) capitalizeJS makesTable prior

/-- The issue-description category loop. -/
def stepIssue (msgLower : String) (prior : Option String) : Option String :=
  scanTable (fun k => strHas msgLower k) id issuesTable prior

/-- The confirmation category loop. -/
def stepConfirmation (msgLower : String) (prior : Option String) : Option String :=
  scanTable (fun k => strHas msgLower k) id confirmationsTable prior

/-- The issue-location category loop: a keyword counts only when the message
also mentions a leak or water. -/
def stepLocation (msgLower : String) (prior : Option String) : Option String :=
  scanTable
    (fun k => strHas msgLower k && (strHas msgLower "leak" || strHas msgLower "water"))
    id locationsTable prior

/-- `EnhancedConversationStateManager.extractInformation(message,
conversationData)`. -/
def extractInformation (message : String) (conversationData : ConversationData) :
    ConversationData :=
  let msgLower := lowerStr message
  let r : ConversationData :=
    { applianceType := stepAppliance msgLower conversationData.applianceType
      issueDescription := stepIssue msgLower conversationData.issueDescription
      applianceMake := stepMake msgLower conversationData.applianceMake
      customerName := overwriteIfSome (extractName message) conversationData.customerName
      streetAddress := overwriteIfSome (extractAddress message) conversationData.streetAddress
      city := overwriteIfSome ((extractCityZip message).map (fun cz => trimJS cz.1))
        conversationData.city
      zipCode := overwriteIfSome ((extractCityZip message).map (fun cz => cz.2))
        conversationData.zipCode
      callbackNumber := overwriteIfSome ((extractPhoneRaw message).map normalizePhone)
        conversationData.callbackNumber
      preferredTime := overwriteIfSome (extractTime message) conversationData.preferredTime
      lastConfirmation := stepConfirmation msgLower conversationData.lastConfirmation
      issueLocation := stepLocation msgLower conversationData.issueLocation
      completionPercentage := conversationData.completionPercentage }
  { r with completionPercentage := jsRoundPct (countRequired r) }

@[simp]
theorem extract_applianceType (m : String) (d : ConversationData) :
    (extractInformation m d).applianceType = stepAppliance (lowerStr m) d.applianceType := rfl

@[simp]
theorem extract_issueDescription (m : String) (d : ConversationData) :
    (extractInformation m d).issueDescription = stepIssue (lowerStr m) d.issueDescription := rfl

@[simp]
theorem extract_applianceMake (m : String) (d : ConversationData) :
    (extractInformation m d).applianceMake = stepMake (lowerStr m) d.applianceMake := rfl

@[simp]
theorem extract_customerName (m : String) (d : ConversationData) :
    (extractInformation m d).customerName =
      overwriteIfSome (extractName m) d.customerName := rfl

@[simp]
theorem extract_streetAddress (m : String) (d : ConversationData) :
    (extractInformation m d).streetAddress =
      overwriteIfSome (extractAddress m) d.streetAddress := rfl

@[simp]
theorem extract_city (m : String) (d : ConversationData) :
    (extractInformation m d).city =
      overwriteIfSome ((extractCityZip m).map (fun cz => trimJS cz.1)) d.city := rfl

@[simp]
theorem extract_zipCode (m : String) (d : ConversationData) :
    (extractInformation m d).zipCode =
      overwriteIfSome ((extractCityZip m).map (fun cz => cz.2)) d.zipCode := rfl

@[simp]
theorem extract_callbackNumber (m : String) (d : ConversationData) :
    (extractInformation m d).callbackNumber =
      overwriteIfSome ((extractPhoneRaw m).map normalizePhone) d.callbackNumber := rfl

@[simp]
theorem extract_preferredTime (m : String) (d : ConversationData) :
    (extractInformation m d).preferredTime =
      overwriteIfSome (extractTime m) d.preferredTime := rfl

@[simp]
theorem extract_lastConfirmation (m : String) (d : ConversationData) :
    (extractInformation m d).lastConfirmation =
      stepConfirmation (lowerStr m) d.lastConfirmation := rfl

@[simp]
theorem extract_issueLocation (m : String) (d : ConversationData) :
    (extractInformation m d).issueLocation =
      stepLocation (lowerStr m) d.issueLocation := rfl

/-- The completion percentage attached by `extractInformation` is exactly the
recomputation from the nine required fields of the very record it returns
(the final assignment changes no required field). -/
theorem extract_completionPercentage (m : String) (d : ConversationData) :
    (extractInformation m d).completionPercentage =
      jsRoundPct (countRequired (extractInformation m d)) := rfl

/-- Sanity: the spec's own three-slot example. -/
example :
    (extractInformation "My Samsung washer is leaking" emptyConversationData).applianceType
      = some "washer" ∧
    (extractInformation "My Samsung washer is leaking" emptyConversationData).applianceMake
      = some "Samsung" ∧
    (extractInformation "My Samsung washer is leaking" emptyConversationData).issueDescription
      = some "leaking" ∧
    (extractInformation "My Samsung washer is leaking" emptyConversationData).completionPercentage
      = 33 := by decide

/-! ## `ConversationFlowManager` (flow engine) -/

/-- `getMissingInformation`: push the missing required fields in the fixed
priority order, city and zip collapsed into one `location` entry when either
is absent. -/
def getMissingInformation (d : ConversationData) : List String :=
  (if truthy d.applianceType then [] else ["applianceType"]) ++
  (if truthy d.issueDescription then [] else ["issueDescription"]) ++
  (if truthy d.applianceMake then [] else ["applianceMake"]) ++
  (if truthy d.customerName then [] else ["customerName"]) ++
  (if truthy d.streetAddress then [] else ["streetAddress"]) ++
  (if truthy d.city && truthy d.zipCode then [] else ["location"]) ++
  (if truthy d.callbackNumber then [] else ["callbackNumber"]) ++
  (if truthy d.preferredTime then [] else ["preferredTime"])

/-- `getApplianceTypeQuestion`. -/
def getApplianceTypeQuestion (isVoice : Bool) : String :=
  if isVoice then "What type of appliance needs repair?"
  else "What type of appliance needs repair - washer, dryer, dishwasher, refrigerator, or something else?"

/-- The per-appliance `questions` table of `getIssueQuestion`. -/
def issueQuestionTable (isVoice : Bool) : List (String × String) :=
  [("washer", if isVoice then "What's happening with your washer?"
    else "What's happening with your washer - is it not starting, leaking water, not spinning, making loud noises, or something else?"),
   ("dryer", if isVoice then "What's wrong with your dryer?"
    else "What's the issue with your dryer - is it not heating, not starting, making noise, or not drying clothes properly?"),
   ("dishwasher", if isVoice then "What's the dishwasher doing?"
    else "What's wrong with your dishwasher - is it not cleaning dishes, not draining, leaking, or not starting?"),
   ("refrigerator", if isVoice then "What's wrong with your fridge?"
    else "What's the problem with your refrigerator - is it not cooling, making noise, leaking, or something else?"),
   ("oven", if isVoice then "What's happening with your oven?"
    else "What's happening with your oven - is it not heating, not starting, door issues, or temperature problems?"),
   ("microwave", if isVoice then "What's wrong with your microwave?"
    else "What's wrong with your microwave - is it not heating, not starting, making noise, or display issues?")]

/-- `getIssueQuestion(applianceType, isVoice)`; an unknown or missing
appliance type falls back to the generic phrasing. -/
def getIssueQuestion (applianceType : Option String) (isVoice : Bool) : String :=
  match applianceType.bind (fun a => (issueQuestionTable isVoice).lookup a) with
  | some q => q
  | none => if isVoice then "What's the specific issue?"
    else "What's the specific issue with your appliance?"

/-- `getMakeQuestion` (interpolates the appliance type). -/
def getMakeQuestion (applianceType : Option String) (isVoice : Bool) : String :=
  if isVoice then "What brand is your " ++ jsStr applianceType ++ "?"
  else "What's the make of your " ++ jsStr applianceType ++
    " - is it Whirlpool, GE, Samsung, LG, or another brand?"

/-- `getNameQuestion`. -/
def getNameQuestion (isVoice : Bool) : String :=
  if isVoice then "What's your full name?"
  else "Great! To schedule your repair, I'll need your full name."

/-- `getAddressQuestion`. -/
def getAddressQuestion (isVoice : Bool) : String :=
  if isVoice then "What's your address?"
  else "What's your address where the repair is needed?"

/-- `getLocationQuestion`. -/
def getLocationQuestion (isVoice : Bool) : String :=
  if isVoice then "What city and zip code?"
  else "What city and zip code is that address in?"

/-- `getPhoneQuestion`. -/
def getPhoneQuestion (isVoice : Bool) : String :=
  if isVoice then "Best callback number?"
  else "What's the best callback number for you?"

/-- `getTimeQuestion`. -/
def getTimeQuestion (isVoice : Bool) : String :=
  if isVoice then "Morning or afternoon better?"
  else "When would be convenient for you - do you prefer mornings or afternoons?"

/-- `getDefaultQuestion`. -/
def getDefaultQuestion (isVoice : Bool) : String :=
  if isVoice then "How can I help you today?"
  else "How can I help you with your appliance repair today?"

/-- `generateNextQuestion(missingField, extractedInfo, isVoice)`: the
`responses` dispatch table with the default-question fallback. -/
def generateNextQuestion (missingField : String) (d : ConversationData) (isVoice : Bool) :
    String :=
  if missingField == "applianceType" then getApplianceTypeQuestion isVoice
  else if missingField == "issueDescription" then getIssueQuestion d.applianceType isVoice
  else if missingField == "applianceMake" then getMakeQuestion d.applianceType isVoice
  else if missingField == "customerName" then getNameQuestion isVoice
  else if missingField == "streetAddress" then getAddressQuestion isVoice
  else if missingField == "location" then getLocationQuestion isVoice
  else if missingField == "callbackNumber" then getPhoneQuestion isVoice
  else if missingField == "preferredTime" then getTimeQuestion isVoice
  else getDefaultQuestion isVoice

/-- The `formats` table of `formatIssueDescription`. -/
def issueFormats : List (String × String) :=
  [("leaking", "leaking"), ("not_starting", "not starting"), ("noisy", "making noise"),
   ("not_heating", "not heating"), ("not_cooling", "not cooling"),
   ("not_spinning", "not spinning"), ("not_draining", "not draining"),
   ("not_cleaning", "not cleaning properly"), ("door_issue", "having door problems"),
   ("control_panel", "having control issues")]

/-- `formatIssueDescription(issue)`: `formats[issue] || issue || 'having
issues'` (all table values are truthy). -/
def formatIssueDescription (issue : Option String) : String :=
  match issue.bind (fun i => issueFormats.lookup i) with
  | some p => p
  | none =>
      match issue with
      | some s => if s.data.isEmpty then "having issues" else s
      | none => "having issues"

/-- `generateSummaryResponse(extractedInfo, isVoice)`: the terminal summary. -/
def generateSummaryResponse (d : ConversationData) (isVoice : Bool) : String :=
  let appliance :=
    if truthy d.applianceMake then jsStr d.applianceMake ++ " " ++ jsStr d.applianceType
    else jsStr d.applianceType
  let issue := formatIssueDescription d.issueDescription
  let time := if truthy d.preferredTime then jsStr d.preferredTime else "your preferred time"
  if isVoice then
    "Perfect! I have " ++ jsStr d.customerName ++ " at " ++ jsStr d.streetAddress ++
      " for a " ++ appliance ++ " that's " ++ issue ++
      ". Our diagnostic fee is $89 which goes toward the repair. Most repairs are $150 to $300. Sound good?"
  else
    "Perfect! Let me confirm:\n- Customer: " ++ jsStr d.customerName ++
      "\n- Address: " ++ jsStr d.streetAddress ++ ", " ++ jsStr d.city ++ " " ++
      jsStr d.zipCode ++ "\n- Appliance: " ++ appliance ++ " - " ++ issue ++
      "\n- Time: " ++ time ++
      "\n- Diagnostic fee: $89 (goes toward repair)\n- Repair cost: Most repairs range $150-$300\n\nIs this correct?"

/-- The field-name rewording of `handleDetailedCustomer`. -/
def detailedFieldLabel (field : String) : String :=
  if field == "customerName" then "your name"
  else if field == "callbackNumber" then "callback number"
  else if field == "location" then "city and zip code"
  else if field == "preferredTime" then "preferred time"
  else field

/-- `handleDetailedCustomer(extractedInfo, isVoice)`. -/
def handleDetailedCustomer (d : ConversationData) (isVoice : Bool) : String :=
  let missing := getMissingInformation d
  if missing.length ≤ 2 then
    let missingFields := missing.map detailedFieldLabel
    if isVoice then
      "I can help with your " ++ jsStr d.applianceType ++ ". I just need " ++
        String.intercalate " and " missingFields ++ "."
    else
      "I can help with your " ++ jsStr d.applianceType ++
        " repair. To schedule a technician, I just need " ++
        String.intercalate " and " missingFields ++ "."
  else generateNextQuestion (missing.headD "") d isVoice

/-- `handleVagueCustomer(extractedInfo, isVoice)`. -/
def handleVagueCustomer (d : ConversationData) (isVoice : Bool) : String :=
  if !truthy d.issueDescription && truthy d.applianceType then
    getIssueQuestion d.applianceType isVoice
  else generateNextQuestion ((getMissingInformation d).headD "") d isVoice

/-- `handleUrgentCustomer(extractedInfo, isVoice)`: the fixed urgent-path
scripts. -/
def handleUrgentCustomer (_d : ConversationData) (isVoice : Bool) : String :=
  if isVoice then
    "I understand this is urgent. Let me get you scheduled quickly. What's your name and address?"
  else
    "I understand this is urgent. To get you scheduled quickly, please provide: your name, address, and best callback number."

/-- `ConversationFlowManager.generateResponse(extractedInfo, isVoice)`. -/
def generateResponse (d : ConversationData) (isVoice : Bool) : String :=
  let completion := d.completionPercentage
  if d.preferredTime == some "urgent" && completion < 50 then
    handleUrgentCustomer d isVoice
  else
    let missingInfo := getMissingInformation d
    if missingInfo.isEmpty then generateSummaryResponse d isVoice
    else if 60 ≤ completion then handleDetailedCustomer d isVoice
    else if completion < 30 then handleVagueCustomer d isVoice
    else generateNextQuestion (missingInfo.headD "") d isVoice

/-! ## FAQ matchers

Scores mix integer keyword/question points with the fractional usage bonus
(`usage_count / 10` resp. `/ 5` in IEEE doubles); the model scores in `ℚ`,
which the doubles compute exactly at these magnitudes. `matches.sort((a, b)
=> b.score - a.score)` sorts descending (the JavaScript sort is stable) and
the code only reads `matches[0]`, a maximal-score element; the model sorts
with `sortDesc`, whose tie order differs from the stable sort, and every
theorem below uses only tie-insensitive consequences of the top element. -/

/-- An FAQ record as the matchers read it (`id, question, response,
keywords, usage_count`). -/
structure FAQ where
  id : Nat
  question : Option String
  response : Option String
  keywords : Option String
  usage_count : Nat
deriving DecidableEq, Repr

/-- A match entry `{ ...faq, score }`. -/
structure ScoredFAQ where
  faq : FAQ
  score : ℚ
deriving DecidableEq, Repr

/-- JavaScript `String.prototype.split` with a single-character separator
(the only separators the matchers use: `','` and `' '`). -/
def splitCh (sep : Char) : List Char → List (List Char)
  | [] => [[]]
  | c :: rest =>
      if c == sep then [] :: splitCh sep rest
      else
        match splitCh sep rest with
        | h :: t => (c :: h) :: t
        | [] => [[c]]

/-- `s.split(sep)` as strings. -/
def splitStr (sep : Char) (s : String) : List String :=
  (splitCh sep s.data).map String.mk

/-- `faq.keywords.split(',').map(k => k.trim().toLowerCase())`, guarded by
the truthiness of `faq.keywords`. -/
def faqKeywordList (keywords : Option String) : List String :=
  if truthy keywords then (splitStr ',' (jsStr keywords)).map (fun k => lowerStr (trimJS k))
  else []

/-- `faq.question.toLowerCase().split(' ')`, guarded by the truthiness of
`faq.question`. -/
def faqQuestionWords (question : Option String) : List String :=
  if truthy question then splitStr ' ' (lowerStr (jsStr question)) else []

/-- The per-word question score shared by all three matchers: `+1` for every
word longer than three characters found in the query. -/
def questionScore (inputLower : String) (question : Option String) : ℚ :=
  (faqQuestionWords question).foldl
    (fun a w => if 3 < w.length && strHas inputLower w then a + 1 else a) 0

/-- Insert into a descending-key list, placing the new element before the
first strictly smaller key. -/
def insDesc {α β : Type} [LinearOrder β] (key : α → β) (a : α) : List α → List α
  | [] => [a]
  | b :: t => if key b < key a then a :: b :: t else b :: insDesc key a t

/-- Descending insertion sort by key. On equal keys this right-fold
insertion yields the later-listed element first — the reverse tie order of
the stable JavaScript `sort` — so the development uses it only through
tie-insensitive facts (membership, length, and that the head carries a
maximal key), each of which holds for the JavaScript order as well. -/
def sortDesc {α β : Type} [LinearOrder β] (key : α → β) : List α → List α
  | [] => []
  | a :: t => insDesc key a (sortDesc key t)

namespace IntelligentFAQMatcher

/-- The keyword score of `IntelligentFAQMatcher.findBestMatch`: `+3` per
(non-empty) keyword occurring in the query. -/
def keywordScore (inputLower : String) (keywords : Option String) : ℚ :=
  (faqKeywordList keywords).foldl
    (fun a k => if !k.data.isEmpty && strHas inputLower k then a + 3 else a) 0

/-- The usage bonus: `Math.min(usage_count / 10, 2)` when positive. -/
def usageBonus (usage : Nat) : ℚ :=
  if 0 < usage then min ((usage : ℚ) / 10) 2 else 0

/-- The total score of one FAQ against the query. -/
def faqScore (inputLower : String) (faq : FAQ) : ℚ :=
  keywordScore inputLower faq.keywords + questionScore inputLower faq.question +
    usageBonus faq.usage_count

/-- `IntelligentFAQMatcher.findBestMatch(faqs, userInput)`
(`src/voice-agent-worker.js`): collect the positive scores, sort descending,
return the top entry when it reaches the threshold 2. -/
def findBestMatch (faqs : List FAQ) (userInput : String) : Option ScoredFAQ :=
  if faqs.isEmpty || userInput.data.isEmpty then none
  else
    let inputLower := lowerStr userInput
    let matchesL := faqs.filterMap (fun f =>
      let s := faqScore inputLower f
      if 0 < s then some (ScoredFAQ.mk f s) else none)
    match sortDesc (fun m => m.score) matchesL with
    | m :: _ => if 2 ≤ m.score then some m else none
    | [] => none

end IntelligentFAQMatcher

namespace DatabaseWorker

/-- `getFAQMatch(companyId, query, env)` (`src/database-worker.js`), given
the FAQ rows its own catalog fetch returned: the scoring and the threshold
are line for line those of `IntelligentFAQMatcher.findBestMatch`. -/
def getFAQMatch (faqs : List FAQ) (query : String) : Option ScoredFAQ :=
  if faqs.isEmpty then none
  else
    let queryLower := lowerStr query
    let matchesL := faqs.filterMap (fun f =>
      let s := IntelligentFAQMatcher.faqScore queryLower f
      if 0 < s then some (ScoredFAQ.mk f s) else none)
    match sortDesc (fun m => m.score) matchesL with
    | m :: _ => if 2 ≤ m.score then some m else none
    | [] => none

end DatabaseWorker

/-- The JavaScript `\w` class, for the `\b` assertions of the SMS matcher. -/
def isWordCh (c : Char) : Bool := asciiAlpha c || asciiDigit c || c == '_'

/-- Wordness of a neighbouring character, the outside counting as non-word. -/
def wordishCh : Option Char → Bool
  | some c => isWordCh c
  | none => false

/-- A `\b` assertion between two neighbouring characters. -/
def wbBoundary (a b : Option Char) : Bool := wordishCh a != wordishCh b

/-- Does `\b<kw>\b` match at the head of `l`, with `prev` the character just
before? -/
def wbAt (kw : List Char) (prev : Option Char) (l : List Char) : Bool :=
  startsL kw l && wbBoundary prev kw.head? &&
    wbBoundary kw.getLast? ((l.drop kw.length).head?)

/-- Scan for `\b<kw>\b` anywhere (the `new RegExp('\\b' + kw + '\\b',
'i').test(inputLower)` call of the SMS matcher, for the plain-text keywords
the catalog holds). -/
def wbScan (kw : List Char) (prev : Option Char) : List Char → Bool
  | [] => wbAt kw prev []
  | c :: rest => wbAt kw prev (c :: rest) || wbScan kw (some c) rest

/-- Whole-word occurrence of a keyword in the query. -/
def wbTest (kw : String) (s : String) : Bool := wbScan kw.data none s.data

namespace EnhancedSMSFAQMatcher

/-- The SMS keyword score: `+4` for a whole-word occurrence, `+2` for a bare
substring occurrence. -/
def keywordScore (inputLower : String) (keywords : Option String) : ℚ :=
  (faqKeywordList keywords).foldl
    (fun a k =>
      if !k.data.isEmpty && strHas inputLower k then
        if wbTest k inputLower then a + 4 else a + 2
      else a) 0

/-- The SMS usage bonus: `Math.min(usage_count / 5, 3)` when positive. -/
def usageBonus (usage : Nat) : ℚ :=
  if 0 < usage then min ((usage : ℚ) / 5) 3 else 0

/-- The SMS length preference: `-1` for responses longer than 800
characters. -/
def lengthPenalty (response : Option String) : ℚ :=
  if truthy response && 800 < (jsStr response).length then 1 else 0

/-- The total SMS score of one FAQ against the query. -/
def faqScore (inputLower : String) (faq : FAQ) : ℚ :=
  keywordScore inputLower faq.keywords + questionScore inputLower faq.question +
    usageBonus faq.usage_count - lengthPenalty faq.response

/-- `EnhancedSMSFAQMatcher.findBestMatch(faqs, userInput)`
(`src/unnamed/part_000`); threshold 3. -/
def findBestMatch (faqs : List FAQ) (userInput : String) : Option ScoredFAQ :=
  if faqs.isEmpty || userInput.data.isEmpty then none
  else
    let inputLower := lowerStr userInput
    let matchesL := faqs.filterMap (fun f =>
      let s := faqScore inputLower f
      if 0 < s then some (ScoredFAQ.mk f s) else none)
    match sortDesc (fun m => m.score) matchesL with
    | m :: _ => if 3 ≤ m.score then some m else none
    | [] => none

end EnhancedSMSFAQMatcher

/-- Sanity: a keyword hit plus usage bonus in the voice matcher. -/
example :
    IntelligentFAQMatcher.findBestMatch
      [⟨7, none, none, some "price", 10⟩] "the price please" =
      some ⟨⟨7, none, none, some "price", 10⟩, 4⟩ := by
  have hkw : faqKeywordList (some "price") = ["price"] := by decide
  have hc : (!("price").data.isEmpty && strHas (lowerStr "the price please") "price") = true := by
    decide
  have hks : IntelligentFAQMatcher.keywordScore (lowerStr "the price please")
      (some "price") = 3 := by
    simp only [IntelligentFAQMatcher.keywordScore, hkw, List.foldl, hc]
    norm_num
    all_goals decide
  have hscore : IntelligentFAQMatcher.faqScore (lowerStr "the price please")
      ⟨7, none, none, some "price", 10⟩ = 4 := by
    simp only [IntelligentFAQMatcher.faqScore, hks]
    norm_num [questionScore, faqQuestionWords, truthy, IntelligentFAQMatcher.usageBonus]
  simp only [IntelligentFAQMatcher.findBestMatch, List.filterMap, hscore]
  norm_num [sortDesc, insDesc]

/-! ## `ResponseAudioMatcher` (`src/voice-agent-worker.js`) -/

namespace ResponseAudioMatcher

/-- `this.matchingRules`, in source order. -/
def matchingRules : List (String × List String) :=
  [("greeting", ["hi", "hello", "sarah", "help you today", "how can i help"]),
   ("understand", ["i understand", "let me help", "help you with that"]),
   ("what_appliance", ["what appliance", "which appliance", "appliance needs service"]),
   ("what_issue", ["what issue", "what's the issue", "experiencing", "what problem"]),
   ("check_availability", ["check availability", "check our availability", "let me check"]),
   ("diagnostic_fee", ["diagnostic fee", "89 dollars", "goes toward", "repair"]),
   ("address_question", ["what is your address", "address", "where are you located"]),
   ("time_preference", ["when would be convenient", "mornings or afternoons", "time preference"]),
   ("appointment_scheduled", ["perfect", "i have you scheduled", "scheduled", "appointment set"]),
   ("anything_else", ["anything else", "else i can help", "other questions"]),
   ("common_issue", ["common problem", "definitely help", "we can help"]),
   ("technician_intro", ["mike rodriguez", "technician", "diagnose and fix"]),
   ("repair_cost_range", ["repairs range from", "150 to 300", "cost range"]),
   ("business_hours", ["monday through friday", "8 am to 6 pm", "business hours"]),
   ("appointment_confirmed", ["appointment is confirmed", "confirmed"]),
   ("processing_moment", ["one moment", "looking that up", "please wait"]),
   ("greeting_confirmed", ["great", "how can i help", "help you today"]),
   ("greeting_hurry_sms", ["understand your concerns", "respect your time", "text message",
     "full name", "address", "appliance", "scheduled faster"])]

/-- `this.conversationFlowPatterns`, in source order. -/
def conversationFlowPatterns : List String :=
  ["i can help with your", "i just need", "what city and zip", "best callback number",
   "morning or afternoon", "preferred time", "what's your full name", "what's your address",
   "what brand is your", "what's happening with", "what's wrong with",
   "what type of appliance", "perfect! i have"]

/-- `isConversationFlowResponse(aiResponse)`: a response mentioning the
diagnostic fee, `$89` or a repair is never treated as a flow prompt; any
other response is one as soon as its lower-casing contains a flow pattern. -/
def isConversationFlowResponse (aiResponse : String) : Bool :=
  if aiResponse.data.isEmpty then false
  else if strHas aiResponse "diagnostic fee" || strHas aiResponse "$89" ||
      strHas aiResponse "repair" then false
  else conversationFlowPatterns.any (fun p => strHas (lowerStr aiResponse) p)

/-- One selected cache entry (`{templateKey, audioUrl, score,
matchedKeywords}`). -/
structure AudioMatch where
  templateKey : String
  audioUrl : String
  score : Nat
  matchedKeywords : List String
deriving DecidableEq, Repr

/-- The per-template keyword score: the summed lengths of the keywords
occurring in the lower-cased response. -/
def audioScore (responseLower : String) (keywords : List String) : Nat :=
  keywords.foldl (fun a k => if strHas responseLower (lowerStr k) then a + k.length else a) 0

/-- `findBestMatch(aiResponse, audioCache)`: the audio cache is the entry
list of the fetched object (`Object.entries` order); strictly better scores
above 5 replace the running best. -/
def findBestMatch (aiResponse : String) (audioCache : List (String × String)) :
    Option AudioMatch :=
  if aiResponse.data.isEmpty || audioCache.isEmpty then none
  else if isConversationFlowResponse aiResponse then none
  else
    let responseLower := lowerStr aiResponse
    audioCache.foldl (fun best entry =>
      let keywords := (matchingRules.lookup entry.1).getD []
      let score0 := audioScore responseLower keywords
      let score := if keywords.any (fun k => responseLower == lowerStr k) then score0 + 50
        else score0
      let bestScore := match best with | some b => b.score | none => 0
      if bestScore < score && 5 < score then
        some ⟨entry.1, entry.2, score,
          keywords.filter (fun k => strHas responseLower (lowerStr k))⟩
      else best) none

end ResponseAudioMatcher

/-- Sanity: a diagnostic-fee response is matched to the cached clip. -/
example :
    ResponseAudioMatcher.findBestMatch
      "Our diagnostic fee is $89 and it goes toward the repair."
      [("diagnostic_fee", "https://cdn/fee.mp3")] =
      some ⟨"diagnostic_fee", "https://cdn/fee.mp3", 31,
        ["diagnostic fee", "goes toward", "repair"]⟩ := by decide

/-! ## `EnhancedConversationStateManager.getConversationState`

The store round trips are explicit inputs: the rows of the
`conversation_states` table, and two Booleans saying whether the fetch
resp. the insert raises. The fetch models the PostgREST query string
`organization_id=eq.X&customer_phone=eq.Y&is_active=eq.true&order=updated_at.desc&limit=1`.
Timestamps are milliseconds since the epoch (`Date.now()`). -/

/-- A `conversation_states` row. -/
structure StateRec where
  organization_id : String
  customer_phone : String
  conversation_data : ConversationData
  current_step : String
  is_active : Bool
  expires_at : Nat
  created_at : Nat
  updated_at : Nat
deriving DecidableEq, Repr

/-- The row filter of the fetch query: same pair, active. -/
def stateMatches (org phone : String) (r : StateRec) : Bool :=
  r.organization_id == org && r.customer_phone == phone && r.is_active

/-- The fetch: filter, order by `updated_at` descending, `limit=1`. -/
def fetchStates (store : List StateRec) (org phone : String) : List StateRec :=
  (sortDesc (fun r => r.updated_at) (store.filter (stateMatches org phone))).take 1

/-- The inserted row of the create branch: empty slots, step `greeting`,
active, expiry 24 hours out (`24 * 60 * 60 * 1000` ms). -/
def newConversationState (org phone : String) (now : Nat) : StateRec :=
  ⟨org, phone, emptyConversationData, "greeting", true, now + 24 * 60 * 60 * 1000, now, now⟩

/-- The transient in-memory default of the catch branch
(`{conversation_data: {}, current_step: 'greeting', is_active: true}`; the
identity and timestamp fields are absent in the source object and zeroed
here). -/
def fallbackState : StateRec := ⟨"", "", emptyConversationData, "greeting", true, 0, 0, 0⟩

/-- `getConversationState(organizationId, customerPhone)`: existing row if
the fetch finds one, else a freshly created row, and the transient default
whenever the store raises (the `try/catch` spans both calls). -/
def getConversationState (store : List StateRec) (org phone : String) (now : Nat)
    (fetchRaises createRaises : Bool) : StateRec :=
  if fetchRaises then fallbackState
  else
    match fetchStates store org phone with
    | s :: _ => s
    | [] => if createRaises then fallbackState else newConversationState org phone now

/-! ## General lemmas about the string utilities -/

theorem startsL_append_self (n t : List Char) : startsL n (n ++ t) = true := by
  induction n with
  | nil => rfl
  | cons c cs ih => simp [startsL, ih]

theorem startsL_extend {n h : List Char} (t : List Char) (hs : startsL n h = true) :
    startsL n (h ++ t) = true := by
  induction n generalizing h with
  | nil => rfl
  | cons c cs ih =>
      cases h with
      | nil => simp [startsL] at hs
      | cons b bs =>
          simp only [startsL, Bool.and_eq_true, beq_iff_eq] at hs
          simp [startsL, hs.1, ih hs.2]

theorem subL_of_startsL {n h : List Char} (hs : startsL n h = true) : subL n h = true := by
  cases h with
  | nil => simpa [subL] using hs
  | cons c cs => simp [subL, hs]

theorem subL_append_left {n h : List Char} (pre : List Char) (hs : subL n h = true) :
    subL n (pre ++ h) = true := by
  induction pre with
  | nil => simpa using hs
  | cons c cs ih =>
      cases n with
      | nil => simp [subL, startsL]
      | cons a as => simp [subL, ih]

theorem subL_extend {n h : List Char} (t : List Char) (hs : subL n h = true) :
    subL n (h ++ t) = true := by
  induction h with
  | nil =>
      simp only [subL] at hs
      exact subL_of_startsL (startsL_extend t hs)
  | cons c cs ih =>
      simp only [subL, Bool.or_eq_true] at hs
      rcases hs with hs | hs
      · exact subL_of_startsL (startsL_extend t hs)
      · cases n with
        | nil => simp [subL, startsL]
        | cons a as => simpa [subL] using Or.inr (ih hs)

theorem strHas_append_right {y : String} (x : String) {n : String}
    (hs : strHas y n = true) : strHas (x ++ y) n = true := by
  simpa [strHas, String.data_append] using subL_append_left x.data hs

theorem strHas_append_left {x : String} (y : String) {n : String}
    (hs : strHas x n = true) : strHas (x ++ y) n = true := by
  simpa [strHas, String.data_append] using subL_extend y.data hs

theorem strHas_self (n : String) : strHas n n = true := by
  have : startsL n.data n.data = true := by
    simpa using startsL_append_self n.data []
  exact subL_of_startsL this

theorem strHas_infix (x z : String) (n : String) :
    strHas (x ++ n ++ z) n = true :=
  strHas_append_left z (strHas_append_right x (strHas_self n))

theorem subL_nonnil {c : Char} {cs h : List Char}
    (hs : subL (c :: cs) h = true) : h ≠ [] := by
  intro he
  subst he
  simp [subL, startsL] at hs

/-! ## General lemmas about the category loops -/

theorem scanTable_preserve {cond : String → Bool} {f : String → String}
    {table : List (String × List String)}
    (hv : ∀ q ∈ table, truthy (some (f q.1)) = true) :
    ∀ {p : Option String}, truthy p = true → truthy (scanTable cond f table p) = true := by
  induction table with
  | nil => intro p hp; simpa [scanTable] using hp
  | cons q rest ih =>
      intro p hp
      obtain ⟨v, ks⟩ := q
      by_cases hk : ks.any cond = true
      · have hvv := hv ⟨v, ks⟩ (by simp)
        simp [scanTable, hk, hvv]
      · have hk2 : ks.any cond = false := by simpa using hk
        simp [scanTable, hk2, hp]

theorem scanTable_idem {cond : String → Bool} {f : String → String}
    {table : List (String × List String)}
    (hv : ∀ q ∈ table, truthy (some (f q.1)) = true) (p : Option String) :
    scanTable cond f table (scanTable cond f table p) = scanTable cond f table p := by
  induction table generalizing p with
  | nil => simp [scanTable]
  | cons q rest ih =>
      obtain ⟨v, ks⟩ := q
      have hvv : truthy (some (f v)) = true := hv ⟨v, ks⟩ (by simp)
      have hrest : ∀ q ∈ rest, truthy (some (f q.1)) = true := fun q hq =>
        hv q (List.mem_cons_of_mem _ hq)
      by_cases hk : ks.any cond = true
      · simp [scanTable, hk, hvv]
      · have hk2 : ks.any cond = false := by simpa using hk
        by_cases hp : truthy p = true
        · simp [scanTable, hk2, hp]
        · have hp2 : truthy p = false := by simpa using hp
          simp only [scanTable, hk2, Bool.false_eq_true, if_false, hp2]
          by_cases hs : truthy (scanTable cond f rest p) = true
          · simp [hs]
          · have hs2 : truthy (scanTable cond f rest p) = false := by simpa using hs
            simp only [hs2, Bool.false_eq_true, if_false]
            exact ih hrest p

theorem overwriteIfSome_idem (a b : Option String) :
    overwriteIfSome a (overwriteIfSome a b) = overwriteIfSome a b := by
  cases a <;> simp [overwriteIfSome]

theorem truthy_overwrite_of_found {a : Option String} {v : String}
    (ha : a = some v) (hv : v.data ≠ []) (b : Option String) :
    truthy (overwriteIfSome a b) = true := by
  subst ha
  simpa [overwriteIfSome, truthy]

theorem truthy_overwrite_none {b : Option String} (hb : truthy b = true) :
    truthy (overwriteIfSome none b) = true := by
  simpa [overwriteIfSome]

/-! ## Guarantees delivered by the structural matchers -/

theorem nameCandidate_valid {cap : Option String} {x : String}
    (hc : nameCandidate cap = some x) : validNameStr x = true := by
  cases cap with
  | none => simp [nameCandidate] at hc
  | some raw =>
      by_cases hvn : validNameStr (trimJS raw) = true
      · simp only [nameCandidate, hvn, if_true, Option.some.injEq] at hc
        rw [← hc]
        exact hvn
      · simp [nameCandidate, hvn] at hc

theorem extractName_valid {m n : String} (h : extractName m = some n) :
    validNameStr n = true := by
  unfold extractName at h
  cases h1 : nameCandidate (reCapture (reSearch nameRE1 m.data)) with
  | some x =>
      rw [h1] at h
      simp only [Option.some.injEq] at h
      exact h ▸ nameCandidate_valid h1
  | none =>
      rw [h1] at h
      cases h2 : nameCandidate (reCapture (reTryAt nameRE2 m.data)) with
      | some x =>
          rw [h2] at h
          simp only [Option.some.injEq] at h
          exact h ▸ nameCandidate_valid h2
      | none =>
          rw [h2] at h
          exact nameCandidate_valid h

theorem addrCandidate_valid {cap : Option String} {x : String}
    (hc : addrCandidate cap = some x) : validAddrStr x = true := by
  cases cap with
  | none => simp [addrCandidate] at hc
  | some raw =>
      by_cases hva : validAddrStr (trimJS raw) = true
      · simp only [addrCandidate, hva, if_true, Option.some.injEq] at hc
        rw [← hc]
        exact hva
      · simp [addrCandidate, hva] at hc

theorem extractAddress_valid {m a : String} (h : extractAddress m = some a) :
    validAddrStr a = true := by
  unfold extractAddress at h
  cases h1 : addrCandidate (reCapture (reSearch addrRE1 m.data)) with
  | some x =>
      rw [h1] at h
      simp only [Option.some.injEq] at h
      exact h ▸ addrCandidate_valid h1
  | none =>
      rw [h1] at h
      cases h2 : addrCandidate (reCapture (reSearch addrRE2 m.data)) with
      | some x =>
          rw [h2] at h
          simp only [Option.some.injEq] at h
          exact h ▸ addrCandidate_valid h2
      | none =>
          rw [h2] at h
          exact addrCandidate_valid h

theorem validName_nonnil {n : String} (h : validNameStr n = true) : n.data ≠ [] := by
  simp only [validNameStr, Bool.and_eq_true] at h
  exact fun he => by simp [he] at h

theorem validAddr_nonnil {a : String} (h : validAddrStr a = true) : a.data ≠ [] := by
  simp only [validAddrStr, Bool.and_eq_true, decide_eq_true_eq] at h
  intro he
  have : a.length = 0 := by simp [String.length, he]
  omega

theorem takeDigitsN_spec :
    ∀ {k : Nat} {l d r : List Char}, takeDigitsN k l = some (d, r) →
      d.length = k ∧ ∀ c ∈ d, asciiDigit c = true := by
  intro k
  induction k with
  | zero =>
      intro l d r h
      simp only [takeDigitsN, Option.some.injEq, Prod.mk.injEq] at h
      obtain ⟨hd, _⟩ := h
      subst hd
      simp
  | succ k ih =>
      intro l d r h
      cases l with
      | nil => simp [takeDigitsN] at h
      | cons c rest =>
          by_cases hc : asciiDigit c = true
          · simp only [takeDigitsN, hc, if_true] at h
            cases hrec : takeDigitsN k rest with
            | none => rw [hrec] at h; simp at h
            | some p =>
                obtain ⟨d0, r0⟩ := p
                rw [hrec] at h
                simp only [Option.some.injEq, Prod.mk.injEq] at h
                obtain ⟨hd, _⟩ := h
                subst hd
                obtain ⟨hl, hall⟩ := ih hrec
                refine ⟨by simp [hl], ?_⟩
                intro x hx
                rcases List.mem_cons.mp hx with hx | hx
                · exact hx ▸ hc
                · exact hall x hx
          · simp [takeDigitsN, hc] at h

theorem filter_digits_self {d : List Char} (h : ∀ c ∈ d, asciiDigit c = true) :
    d.filter asciiDigit = d :=
  List.filter_eq_self.mpr (by simpa using h)

theorem sep_not_digit {c : Char} (hc : sepChar c = true) : asciiDigit c = false := by
  have hcs : c = '-' ∨ c = '.' ∨ c = ' ' ∨ c = '\t' ∨ c = '\n' ∨ c = '\r' ∨
      c = '\x0b' ∨ c = '\x0c' := by
    simpa [sepChar, jsSpace, or_assoc] using hc
  rcases hcs with h | h | h | h | h | h | h | h <;> subst h <;> decide

theorem jsSpace_not_digit {c : Char} (hc : jsSpace c = true) : asciiDigit c = false := by
  have hcs : c = ' ' ∨ c = '\t' ∨ c = '\n' ∨ c = '\r' ∨ c = '\x0b' ∨ c = '\x0c' := by
    simpa [jsSpace, or_assoc] using hc
  rcases hcs with h | h | h | h | h | h <;> subst h <;> decide

theorem optSep_filter (l : List Char) : ((optSep l).1).filter asciiDigit = [] := by
  cases l with
  | nil => rfl
  | cons c rest =>
      by_cases hc : sepChar c = true
      · simp [optSep, hc, List.filter, sep_not_digit hc]
      · simp [optSep, hc]

theorem phone1At_digits {l m : List Char} (h : phone1At l = some m) :
    (m.filter asciiDigit).length = 10 := by
  unfold phone1At at h
  cases h1 : takeDigitsN 3 l with
  | none => rw [h1] at h; simp at h
  | some p1 =>
      obtain ⟨d1, r1⟩ := p1
      rw [h1] at h
      simp only at h
      cases h2 : takeDigitsN 3 (optSep r1).2 with
      | none => rw [h2] at h; simp at h
      | some p2 =>
          obtain ⟨d2, r3⟩ := p2
          rw [h2] at h
          simp only at h
          cases h3 : takeDigitsN 4 (optSep r3).2 with
          | none => rw [h3] at h; simp at h
          | some p3 =>
              obtain ⟨d3, r5⟩ := p3
              rw [h3] at h
              simp only [Option.some.injEq] at h
              obtain ⟨hl1, ha1⟩ := takeDigitsN_spec h1
              obtain ⟨hl2, ha2⟩ := takeDigitsN_spec h2
              obtain ⟨hl3, ha3⟩ := takeDigitsN_spec h3
              rw [← h]
              simp [List.filter_append, filter_digits_self ha1, filter_digits_self ha2,
                filter_digits_self ha3, optSep_filter, hl1, hl2, hl3]

theorem phone2At_digits {l m : List Char} (h : phone2At l = some m) :
    (m.filter asciiDigit).length = 10 := by
  unfold phone2At at h
  split at h
  next r0 =>
    cases h1 : takeDigitsN 3 r0 with
    | none => rw [h1] at h; simp at h
    | some p1 =>
        obtain ⟨d1, r1⟩ := p1
        rw [h1] at h
        simp only at h
        split at h
        next r2 =>
          cases h2 : takeDigitsN 3 (match r2 with
              | c :: rest => if jsSpace c then ([c], rest) else (([] : List Char), r2)
              | [] => ([], [])).2 with
          | none => rw [h2] at h; simp at h
          | some p2 =>
              obtain ⟨d2, r4⟩ := p2
              rw [h2] at h
              simp only at h
              cases h3 : takeDigitsN 4 (optSep r4).2 with
              | none => rw [h3] at h; simp at h
              | some p3 =>
                  obtain ⟨d3, r5⟩ := p3
                  rw [h3] at h
                  simp only [Option.some.injEq] at h
                  obtain ⟨hl1, ha1⟩ := takeDigitsN_spec h1
                  obtain ⟨hl2, ha2⟩ := takeDigitsN_spec h2
                  obtain ⟨hl3, ha3⟩ := takeDigitsN_spec h3
                  have hspf : ((match r2 with
                      | c :: rest => if jsSpace c then ([c], rest) else (([] : List Char), r2)
                      | [] => (([] : List Char), [])).1).filter asciiDigit = [] := by
                    cases r2 with
                    | nil => rfl
                    | cons c rest =>
                        by_cases hc : jsSpace c = true
                        · simp [hc, List.filter, jsSpace_not_digit hc]
                        · simp [hc]
                  have hpo : asciiDigit '(' = false := by decide
                  have hpc : asciiDigit ')' = false := by decide
                  rw [← h]
                  simp [List.filter_append, filter_digits_self ha1, filter_digits_self ha2,
                    filter_digits_self ha3, optSep_filter, hspf, hl1, hl2, hl3, List.filter,
                    hpo, hpc]
        next => simp at h
  next => simp at h

theorem scanFor_ex {atPos : List Char → Option (List Char)} :
    ∀ {l m : List Char}, scanFor atPos l = some m → ∃ s, atPos s = some m := by
  intro l
  induction l with
  | nil => intro m h; exact ⟨[], h⟩
  | cons c rest ih =>
      intro m h
      unfold scanFor at h
      cases h1 : atPos (c :: rest) with
      | some x => rw [h1] at h; simp only [Option.some.injEq] at h; exact ⟨c :: rest, h ▸ h1⟩
      | none => rw [h1] at h; exact ih h

theorem extractPhoneRaw_digits {msg : String} {m : List Char}
    (h : extractPhoneRaw msg = some m) : (m.filter asciiDigit).length = 10 := by
  unfold extractPhoneRaw at h
  cases h1 : scanFor phone1At msg.data with
  | some x =>
      rw [h1] at h
      simp only [Option.some.injEq] at h
      obtain ⟨s, hs⟩ := scanFor_ex h1
      exact h ▸ phone1At_digits hs
  | none =>
      rw [h1] at h
      obtain ⟨s, hs⟩ := scanFor_ex h
      exact phone2At_digits hs

theorem normalizePhone_shape {m : List Char} (h : (m.filter asciiDigit).length = 10) :
    normalizePhone m = "+1" ++ String.mk (m.filter asciiDigit) ∧
      (String.mk (m.filter asciiDigit)).length = 10 ∧
      ∀ c ∈ (String.mk (m.filter asciiDigit)).data, asciiDigit c = true := by
  have hlen : (String.mk (m.filter asciiDigit)).length = 10 := by
    simpa [String.length] using h
  refine ⟨?_, hlen, ?_⟩
  · unfold normalizePhone
    simp [hlen]
  · intro c hc
    simp only [String.data] at hc
    exact List.of_mem_filter hc

theorem cityZipTail_spec {l d : List Char} (h : cityZipTail l = some d) :
    d.length = 5 ∧ ∀ c ∈ d, asciiDigit c = true := by
  unfold cityZipTail at h
  by_cases hsp : (l.takeWhile jsSpace).isEmpty = true
  · simp [hsp] at h
  · have hsp2 : (l.takeWhile jsSpace).isEmpty = false := by simpa using hsp
    simp only [hsp2, Bool.false_eq_true, if_false] at h
    cases h1 : takeDigitsN 5 (l.drop (l.takeWhile jsSpace).length) with
    | none => rw [h1] at h; simp at h
    | some p =>
        obtain ⟨d0, r0⟩ := p
        rw [h1] at h
        simp only [Option.some.injEq] at h
        have hspec := takeDigitsN_spec h1
        exact ⟨h ▸ hspec.1, h ▸ hspec.2⟩

theorem cityZipTryA_spec {cs : List Char} :
    ∀ {a : Nat} {c z : List Char}, cityZipTryA cs a = some (c, z) →
      z.length = 5 ∧ ∀ x ∈ z, asciiDigit x = true := by
  intro a
  induction a with
  | zero => intro c z h; simp [cityZipTryA] at h
  | succ a ih =>
      intro c z h
      unfold cityZipTryA at h
      simp only [] at h
      split at h
      next res heq =>
        simp only [Option.some.injEq] at h
        subst h
        split at heq
        next r2 hdrop =>
          cases h1 : cityZipTail r2 with
          | none => rw [h1] at heq; simp at heq
          | some d =>
              rw [h1] at heq
              simp only [Option.some.injEq, Prod.mk.injEq] at heq
              obtain ⟨-, hz2⟩ := heq
              have hs := cityZipTail_spec h1
              exact ⟨hz2 ▸ hs.1, hz2 ▸ hs.2⟩
        next => simp at heq
      next heq =>
        cases h2 : cityZipTail (cs.drop (a + 1)) with
        | none => rw [h2] at h; exact ih h
        | some d =>
            rw [h2] at h
            simp only [Option.some.injEq, Prod.mk.injEq] at h
            obtain ⟨-, hz⟩ := h
            have hs := cityZipTail_spec h2
            exact ⟨hz ▸ hs.1, hz ▸ hs.2⟩

theorem cityZipSearch_spec :
    ∀ {l c z : List Char}, cityZipSearch l = some (c, z) →
      z.length = 5 ∧ ∀ x ∈ z, asciiDigit x = true := by
  intro l
  induction l with
  | nil => intro c z h; simp [cityZipSearch] at h
  | cons ch rest ih =>
      intro c z h
      unfold cityZipSearch at h
      cases h1 : cityZipAt (ch :: rest) with
      | some p =>
          obtain ⟨c0, z0⟩ := p
          rw [h1] at h
          simp only [Option.some.injEq, Prod.mk.injEq] at h
          obtain ⟨-, hz⟩ := h
          have := cityZipTryA_spec h1
          exact ⟨hz ▸ this.1, hz ▸ this.2⟩
      | none => rw [h1] at h; exact ih h

theorem extractCityZip_zip {msg : String} {c z : String}
    (h : extractCityZip msg = some (c, z)) :
    z.length = 5 ∧ z.data ≠ [] := by
  unfold extractCityZip at h
  cases h1 : cityZipSearch msg.data with
  | none => rw [h1] at h; simp at h
  | some p =>
      obtain ⟨c0, z0⟩ := p
      rw [h1] at h
      simp only [Option.some.injEq, Prod.mk.injEq] at h
      obtain ⟨-, hz⟩ := h
      have hs := cityZipSearch_spec h1
      have hzl : z.length = 5 := by
        rw [← hz]
        simpa [String.length] using hs.1
      refine ⟨hzl, ?_⟩
      intro he
      have : z.length = 0 := by simp [String.length, he]
      omega

theorem time1At_nonnil {l m : List Char} (h : time1At l = some m) : m ≠ [] := by
  unfold time1At at h
  cases l with
  | nil => simp at h
  | cons c1 r1 =>
      by_cases hc : asciiDigit c1 = true
      · simp only [hc, if_true] at h
        split at h
        next a mm rest =>
          split at h
          · simp only [Option.some.injEq] at h
            rw [← h]
            cases hss : (match r1 with
                | c2 :: r2 => if asciiDigit c2 = true then ([c1, c2], r2) else ([c1], r1)
                | [] => ([c1], ([] : List Char))).1 with
            | nil =>
                -- the digit split always starts with c1
                exfalso
                cases r1 with
                | nil => simp at hss
                | cons c2 r2 =>
                    by_cases hc2 : asciiDigit c2 = true
                    · simp [hc2] at hss
                    · simp [hc2] at hss
            | cons x xs => simp
          · simp at h
        next => simp at h
      · simp [hc] at h

theorem litCIAt_length :
    ∀ {lit l m : List Char}, litCIAt lit l = some m → m.length = lit.length := by
  intro lit
  induction lit with
  | nil => intro l m h; simp [litCIAt] at h; simp [← h]
  | cons a as ih =>
      intro l m h
      cases l with
      | nil => simp [litCIAt] at h
      | cons b bs =>
          by_cases hab : (a.toLower == b.toLower) = true
          · simp only [litCIAt, hab, if_true] at h
            cases h1 : litCIAt as bs with
            | none => rw [h1] at h; simp at h
            | some r =>
                rw [h1] at h
                simp only [Option.some.injEq] at h
                rw [← h]
                simp [ih h1]
          · simp [litCIAt, hab] at h

theorem altLitAt_nonnil {lits : List (List Char)}
    (hl : ∀ lit ∈ lits, lit ≠ []) :
    ∀ {l m : List Char}, altLitAt lits l = some m → m ≠ [] := by
  induction lits with
  | nil => intro l m h; simp [altLitAt] at h
  | cons lit rest ih =>
      intro l m h
      unfold altLitAt at h
      cases h1 : litCIAt lit l with
      | some x =>
          rw [h1] at h
          simp only [Option.some.injEq] at h
          have hlen := litCIAt_length h1
          have hne : lit ≠ [] := hl lit (by simp)
          intro he
          subst h
          rw [he] at hlen
          exact hne (List.eq_nil_of_length_eq_zero (by simpa using hlen.symm))
      | none =>
          rw [h1] at h
          exact ih (fun q hq => hl q (List.mem_cons_of_mem _ hq)) h

theorem extractTime_nonnil {msg : String} {t : String}
    (h : extractTime msg = some t) : t.data ≠ [] := by
  unfold extractTime at h
  cases h1 : scanFor time1At msg.data with
  | some m =>
      rw [h1] at h
      simp only [Option.some.injEq] at h
      obtain ⟨s, hs⟩ := scanFor_ex h1
      rw [← h]
      simpa using time1At_nonnil hs
  | none =>
      rw [h1] at h
      cases h2 : scanFor (altLitAt [("morning").data, ("afternoon").data, ("evening").data])
          msg.data with
      | some m =>
          rw [h2] at h
          simp only [Option.some.injEq] at h
          obtain ⟨s, hs⟩ := scanFor_ex h2
          rw [← h]
          simpa using altLitAt_nonnil (by decide) hs
      | none =>
          rw [h2] at h
          cases h3 : scanFor (altLitAt [("today").data, ("tomorrow").data,
              ("this week").data, ("next week").data]) msg.data with
          | some m =>
              rw [h3] at h
              simp only [Option.some.injEq] at h
              obtain ⟨s, hs⟩ := scanFor_ex h3
              rw [← h]
              simpa using altLitAt_nonnil (by decide) hs
          | none =>
              rw [h3] at h
              cases h4 : scanFor (altLitAt [("asap").data, ("urgent").data,
                  ("emergency").data, ("right away").data]) msg.data with
              | some m =>
                  rw [h4] at h
                  simp only [Option.some.injEq] at h
                  rw [← h]
                  decide
              | none => rw [h4] at h; simp at h

/-! ## Lemmas about the stable descending sort and the score folds -/

theorem mem_insDesc {α β : Type} [LinearOrder β] (key : α → β) (a x : α) :
    ∀ l : List α, x ∈ insDesc key a l ↔ x = a ∨ x ∈ l := by
  intro l
  induction l with
  | nil => simp [insDesc]
  | cons b t ih =>
      by_cases hb : key b < key a
      · simp [insDesc, hb]
      · simp only [insDesc, hb, if_false, List.mem_cons, ih]
        tauto

theorem mem_sortDesc {α β : Type} [LinearOrder β] (key : α → β) (x : α) :
    ∀ l : List α, x ∈ sortDesc key l ↔ x ∈ l := by
  intro l
  induction l with
  | nil => simp [sortDesc]
  | cons a t ih => simp [sortDesc, mem_insDesc, ih]

theorem sortDesc_head_ge {α β : Type} [LinearOrder β] (key : α → β) :
    ∀ {l : List α} {m : α} {rest : List α}, sortDesc key l = m :: rest →
      ∀ y ∈ l, key y ≤ key m := by
  intro l
  induction l with
  | nil => intro m rest h; simp [sortDesc] at h
  | cons a t ih =>
      intro m rest h y hy
      unfold sortDesc at h
      cases hs : sortDesc key t with
      | nil =>
          rw [hs] at h
          simp only [insDesc, List.cons.injEq] at h
          obtain ⟨hm, -⟩ := h
          have ht : t = [] := by
            have hlen : (sortDesc key t).length = t.length := by
              clear hs ih hy
              induction t with
              | nil => simp [sortDesc]
              | cons b u ihl =>
                  have hins : ∀ (z : α) (w : List α), (insDesc key z w).length = w.length + 1 := by
                    intro z w
                    induction w with
                    | nil => simp [insDesc]
                    | cons q qs ihw =>
                        by_cases hq : key q < key z
                        · simp [insDesc, hq]
                        · simp [insDesc, hq, ihw]
                  simp [sortDesc, hins, ihl]
            rw [hs] at hlen
            simpa using (List.eq_nil_of_length_eq_zero hlen.symm)
          subst ht
          rcases List.mem_singleton.mp hy with rfl
          exact hm ▸ le_refl _
      | cons b bt =>
          rw [hs] at h
          have hbmax : ∀ z ∈ t, key z ≤ key b := ih hs
          by_cases hba : key b < key a
          · simp only [insDesc, hba, if_true, List.cons.injEq] at h
            obtain ⟨hm, -⟩ := h
            subst hm
            rcases List.mem_cons.mp hy with rfl | hy
            · exact le_refl _
            · exact le_trans (hbmax y hy) (le_of_lt hba)
          · simp only [insDesc, hba, if_false, List.cons.injEq] at h
            obtain ⟨hm, -⟩ := h
            subst hm
            rcases List.mem_cons.mp hy with rfl | hy
            · exact le_of_not_lt hba
            · exact hbmax y hy

theorem foldl_keep_of_no_hit {α β : Type} {p : α → Bool} {g : β → α → β} {x : β} :
    ∀ {l : List α}, (∀ k ∈ l, p k = false) →
      l.foldl (fun a k => if p k then g a k else a) x = x := by
  intro l
  induction l generalizing x with
  | nil => intro _; rfl
  | cons k ks ih =>
      intro hk
      have h0 : p k = false := hk k (by simp)
      simp only [List.foldl, h0, Bool.false_eq_true, if_false]
      exact ih (fun q hq => hk q (List.mem_cons_of_mem _ hq))

/-! ## Completion-percentage facts -/

theorem countRequired_le_nine (d : ConversationData) : countRequired d ≤ 9 := by
  have h : (requiredPresentList d).length = 9 := rfl
  exact h ▸ List.count_le_length _ _

theorem jsRoundPct_strict_mono (k : Nat) : jsRoundPct k < jsRoundPct (k + 1) := by
  unfold jsRoundPct
  have h1 : 200 * (k + 1) + 9 = (200 * k + 9) + 11 * 18 + 2 := by ring
  have h2 : ((200 * k + 9) + 11 * 18) / 18 = (200 * k + 9) / 18 + 11 :=
    Nat.add_mul_div_right _ _ (by norm_num)
  have h3 : ((200 * k + 9) + 11 * 18) / 18 ≤ (200 * (k + 1) + 9) / 18 := by
    apply Nat.div_le_div_right
    omega
  omega

/-! ## Claim theorems -/

/-- Claim C1: for every utterance and prior slot set, the slot set returned
by `extractInformation` carries `completionPercentage` equal to
`round(100 × (number of required fields present) / 9)`, the required fields
being the fixed nine-element list with city and zip code counted as two
independent fields (`countRequired`). -/
theorem C1_completion_formula (m : String) (d : ConversationData) :
    ((extractInformation m d).completionPercentage : ℤ) =
      round ((100 * (countRequired (extractInformation m d) : ℚ)) / 9) := by
  have hle : countRequired (extractInformation m d) ≤ 9 :=
    countRequired_le_nine _
  rw [extract_completionPercentage m d]
  generalize countRequired (extractInformation m d) = k at hle
  interval_cases k <;> norm_num [jsRoundPct, round_eq]

/-- Claim C8: extraction is idempotent on repeated application: running
`extractInformation` twice with the same utterance gives the slot set of a
single run. -/
theorem C8_extract_idempotent (u : String) (S : ConversationData) :
    extractInformation u (extractInformation u S) = extractInformation u S := by
  have happ : ∀ q ∈ appliancesTable, truthy (some (id q.1)) = true := by decide
  have hmk : ∀ q ∈ makesTable, truthy (some (capitalizeJS q.1)) = true := by decide
  have hiss : ∀ q ∈ issuesTable, truthy (some (id q.1)) = true := by decide
  have hcf : ∀ q ∈ confirmationsTable, truthy (some (id q.1)) = true := by decide
  have hloc : ∀ q ∈ locationsTable, truthy (some (id q.1)) = true := by decide
  have hcount : countRequired (extractInformation u (extractInformation u S)) =
      countRequired (extractInformation u S) := by
    simp only [countRequired, requiredPresentList, extract_applianceType,
      extract_issueDescription, extract_applianceMake, extract_customerName,
      extract_streetAddress, extract_city, extract_zipCode, extract_callbackNumber,
      extract_preferredTime, stepAppliance, stepIssue, stepMake,
      scanTable_idem happ, scanTable_idem hiss, scanTable_idem hmk,
      overwriteIfSome_idem]
  apply ConversationData.ext <;>
    first
      | (rw [extract_completionPercentage, extract_completionPercentage, hcount])
      | simp [extract_applianceType, extract_issueDescription, extract_applianceMake,
          extract_customerName, extract_streetAddress, extract_city, extract_zipCode,
          extract_callbackNumber, extract_preferredTime, extract_lastConfirmation,
          extract_issueLocation, stepAppliance, stepIssue, stepMake, stepConfirmation,
          stepLocation, scanTable_idem happ, scanTable_idem hiss, scanTable_idem hmk,
          scanTable_idem hcf, scanTable_idem hloc, overwriteIfSome_idem]

theorem truthy_of_nonnil {s : String} (h : s.data ≠ []) : truthy (some s) = true := by
  simpa [truthy]

theorem append_nonnil_left {x y : String} (h : x.data ≠ []) : (x ++ y).data ≠ [] := by
  rw [String.data_append]
  intro he
  exact h (List.append_eq_nil.mp he).1

/-- Claim C7 (amended): extraction never clears any previously set slot other
than `city`; the `city` slot can only be cleared when the city/zip pattern
matches with a capture that trims to the empty string. -/
theorem C7_no_clear_except_city (u : String) (S : ConversationData) :
    (truthy S.applianceType = true → truthy (extractInformation u S).applianceType = true) ∧
    (truthy S.issueDescription = true → truthy (extractInformation u S).issueDescription = true) ∧
    (truthy S.applianceMake = true → truthy (extractInformation u S).applianceMake = true) ∧
    (truthy S.customerName = true → truthy (extractInformation u S).customerName = true) ∧
    (truthy S.streetAddress = true → truthy (extractInformation u S).streetAddress = true) ∧
    (truthy S.zipCode = true → truthy (extractInformation u S).zipCode = true) ∧
    (truthy S.callbackNumber = true → truthy (extractInformation u S).callbackNumber = true) ∧
    (truthy S.preferredTime = true → truthy (extractInformation u S).preferredTime = true) ∧
    (truthy S.lastConfirmation = true → truthy (extractInformation u S).lastConfirmation = true) ∧
    (truthy S.issueLocation = true → truthy (extractInformation u S).issueLocation = true) ∧
    (truthy S.city = true → truthy (extractInformation u S).city = false →
      ∃ cz, extractCityZip u = some cz ∧ (trimJS cz.1).data = []) := by
  have happ : ∀ q ∈ appliancesTable, truthy (some (id q.1)) = true := by decide
  have hmk : ∀ q ∈ makesTable, truthy (some (capitalizeJS q.1)) = true := by decide
  have hiss : ∀ q ∈ issuesTable, truthy (some (id q.1)) = true := by decide
  have hcf : ∀ q ∈ confirmationsTable, truthy (some (id q.1)) = true := by decide
  have hloc : ∀ q ∈ locationsTable, truthy (some (id q.1)) = true := by decide
  refine ⟨?_, ?_, ?_, ?_, ?_, ?_, ?_, ?_, ?_, ?_, ?_⟩
  · intro h
    rw [extract_applianceType]
    exact scanTable_preserve happ h
  · intro h
    rw [extract_issueDescription]
    exact scanTable_preserve hiss h
  · intro h
    rw [extract_applianceMake]
    exact scanTable_preserve hmk h
  · intro h
    rw [extract_customerName]
    cases hn : extractName u with
    | some n =>
        exact truthy_overwrite_of_found rfl (validName_nonnil (extractName_valid hn)) _
    | none => exact truthy_overwrite_none h
  · intro h
    rw [extract_streetAddress]
    cases ha : extractAddress u with
    | some a =>
        exact truthy_overwrite_of_found rfl (validAddr_nonnil (extractAddress_valid ha)) _
    | none => exact truthy_overwrite_none h
  · intro h
    rw [extract_zipCode]
    cases hcz : extractCityZip u with
    | some cz =>
        obtain ⟨c, z⟩ := cz
        have hz := (extractCityZip_zip hcz).2
        exact truthy_overwrite_of_found rfl hz _
    | none => exact truthy_overwrite_none h
  · intro h
    rw [extract_callbackNumber]
    cases hp : extractPhoneRaw u with
    | some m0 =>
        have hd := extractPhoneRaw_digits hp
        obtain ⟨hform, hlen, -⟩ := normalizePhone_shape hd
        have hne : (normalizePhone m0).data ≠ [] := by
          rw [hform]
          exact append_nonnil_left (by decide)
        exact truthy_overwrite_of_found rfl hne _
    | none => exact truthy_overwrite_none h
  · intro h
    rw [extract_preferredTime]
    cases ht : extractTime u with
    | some t => exact truthy_overwrite_of_found rfl (extractTime_nonnil ht) _
    | none => exact truthy_overwrite_none h
  · intro h
    rw [extract_lastConfirmation]
    exact scanTable_preserve hcf h
  · intro h
    rw [extract_issueLocation]
    exact scanTable_preserve hloc h
  · intro ht hf
    rw [extract_city] at hf
    cases hcz : extractCityZip u with
    | some cz =>
        refine ⟨cz, rfl, ?_⟩
        rw [hcz] at hf
        simp only [overwriteIfSome, truthy, Option.map] at hf
        simpa using hf
    | none =>
        rw [hcz] at hf
        simp [overwriteIfSome, ht] at hf

/-- Claim C7, counterexample to the claim as stated: the utterance
`"  12345"` (two spaces, then a five-digit zip) makes the city/zip pattern
capture a whitespace-only city, and extraction overwrites — clears — the
previously set `city` slot with the empty string. -/
theorem C7_counterexample :
    truthy ({ emptyConversationData with city := some "Austin" } : ConversationData).city
      = true ∧
    truthy (extractInformation "  12345"
      { emptyConversationData with city := some "Austin" }).city = false := by decide

/-- Claim C7, witness. -/
theorem C7_witness :
    truthy (extractInformation "morning"
      { emptyConversationData with zipCode := some "78701" }).zipCode = true :=
  (C7_no_clear_except_city "morning"
    { emptyConversationData with zipCode := some "78701" }).2.2.2.2.2.1 (by decide)

/-- Claim C10: whenever `extractInformation` sets `callbackNumber` from the
current utterance (a phone pattern matched), the stored value is `+1`
followed by the digits of the match with non-digits stripped; those are
always exactly ten digits, so the `+1` prefix is present exactly when the
stripped match has ten digits. -/
theorem C10_phone_normalized (u : String) (S : ConversationData) (m0 : List Char)
    (hp : extractPhoneRaw u = some m0) :
    (extractInformation u S).callbackNumber =
      some ("+1" ++ String.mk (m0.filter asciiDigit)) ∧
    (String.mk (m0.filter asciiDigit)).length = 10 ∧
    (∀ c ∈ (String.mk (m0.filter asciiDigit)).data, asciiDigit c = true) := by
  have hd := extractPhoneRaw_digits hp
  obtain ⟨hform, hlen, hall⟩ := normalizePhone_shape hd
  refine ⟨?_, hlen, hall⟩
  rw [extract_callbackNumber, hp]
  simp [overwriteIfSome, hform]

/-- Claim C10, witness. -/
theorem C10_witness :
    (extractInformation "call me at 512-555-1234"
      emptyConversationData).callbackNumber =
      some ("+1" ++ String.mk ((("512-555-1234" : String).data).filter asciiDigit)) :=
  (C10_phone_normalized "call me at 512-555-1234" emptyConversationData
    ("512-555-1234" : String).data (by decide)).1

theorem location_mem_ite (b : Bool) (s : String) (hs : ¬("location" = s)) :
    ("location" ∈ (if b = true then ([] : List String) else [s])) = False := by
  cases b <;> simp [hs]

/-- Claim C4 (amended): the completion percentage counts city and zip code
independently — setting exactly one of them (the other still absent) raises
the count by one and strictly changes the rounded percentage, whichever of
the two is set; only the missing list of the flow engine collapses the
pair, holding `location` exactly when city and zip are not both present. -/
theorem C4_city_zip_independent (d : ConversationData) (c : String)
    (hc : c.data ≠ []) (hcity : truthy d.city = false)
    (hzip : truthy d.zipCode = false) :
    countRequired { d with city := some c } = countRequired d + 1 ∧
    jsRoundPct (countRequired { d with city := some c }) ≠
      jsRoundPct (countRequired d) ∧
    countRequired { d with zipCode := some c } = countRequired d + 1 ∧
    jsRoundPct (countRequired { d with zipCode := some c }) ≠
      jsRoundPct (countRequired d) ∧
    ("location" ∈ getMissingInformation d ↔
      ¬(truthy d.city = true ∧ truthy d.zipCode = true)) := by
  have h1 : truthy (some c) = true := truthy_of_nonnil hc
  have hcountC : countRequired { d with city := some c } = countRequired d + 1 := by
    simp only [countRequired, requiredPresentList]
    rw [h1, hcity]
    cases truthy d.applianceType <;> cases truthy d.issueDescription <;>
      cases truthy d.applianceMake <;> cases truthy d.customerName <;>
      cases truthy d.streetAddress <;> cases truthy d.zipCode <;>
      cases truthy d.callbackNumber <;> cases truthy d.preferredTime <;> decide
  have hcountZ : countRequired { d with zipCode := some c } = countRequired d + 1 := by
    simp only [countRequired, requiredPresentList]
    rw [h1, hzip]
    cases truthy d.applianceType <;> cases truthy d.issueDescription <;>
      cases truthy d.applianceMake <;> cases truthy d.customerName <;>
      cases truthy d.streetAddress <;> cases truthy d.city <;>
      cases truthy d.callbackNumber <;> cases truthy d.preferredTime <;> decide
  refine ⟨hcountC, ?_, hcountZ, ?_, ?_⟩
  · rw [hcountC]
    exact (jsRoundPct_strict_mono (countRequired d)).ne'
  · rw [hcountZ]
    exact (jsRoundPct_strict_mono (countRequired d)).ne'
  · simp only [getMissingInformation, List.mem_append,
      location_mem_ite _ "applianceType" (by decide),
      location_mem_ite _ "issueDescription" (by decide),
      location_mem_ite _ "applianceMake" (by decide),
      location_mem_ite _ "customerName" (by decide),
      location_mem_ite _ "streetAddress" (by decide),
      location_mem_ite _ "callbackNumber" (by decide),
      location_mem_ite _ "preferredTime" (by decide)]
    by_cases hcz : (truthy d.city && truthy d.zipCode) = true
    · simp only [hcz, if_true]
      simp only [Bool.and_eq_true] at hcz
      simp [hcz]
    · have hcz2 : (truthy d.city && truthy d.zipCode) = false := by simpa using hcz
      simp only [hcz2, Bool.false_eq_true, if_false]
      simp only [Bool.and_eq_true] at hcz2
      simp only [List.mem_singleton, false_or, or_false]
      constructor
      · intro _ hcontra
        rw [hcontra.1, hcontra.2] at hcz2
        simp at hcz2
      · intro _
        trivial

/-- Claim C4, counterexample to the claim as stated: starting from empty
slots, setting only `city` (zip still absent) changes the completion
percentage from 0 to 11 — not the same value, because the completion count
treats city and zip as two independent fields. -/
theorem C4_counterexample :
    (extractInformation ""
      { emptyConversationData with city := some "Austin" }).completionPercentage = 11 ∧
    (extractInformation "" emptyConversationData).completionPercentage = 0 := by decide

/-- Claim C4, witness. -/
theorem C4_witness :
    countRequired { emptyConversationData with city := some "Austin" } =
      countRequired emptyConversationData + 1 ∧
    countRequired { emptyConversationData with zipCode := some "Austin" } =
      countRequired emptyConversationData + 1 :=
  ⟨(C4_city_zip_independent emptyConversationData "Austin"
      (by decide) (by decide) (by decide)).1,
   (C4_city_zip_independent emptyConversationData "Austin"
      (by decide) (by decide) (by decide)).2.2.1⟩

/-- Claim C6 (amended): a slot set with `preferredTime = "urgent"` and stored
completion below 50 always takes the urgent branch of `generateResponse`,
before the summary, detailed, vague and default branches; the voice script
asks for name and address, the text script for name, address and best
callback number. The emergency-dishwasher utterance extracted from empty
slots lands in this branch on both channels. -/
theorem C6_urgent_precedence (d : ConversationData) (isVoice : Bool)
    (hu : d.preferredTime = some "urgent") (hc : d.completionPercentage < 50) :
    generateResponse d isVoice = handleUrgentCustomer d isVoice ∧
    (extractInformation "Emergency! My dishwasher is flooding"
        emptyConversationData).preferredTime = some "urgent" ∧
    (extractInformation "Emergency! My dishwasher is flooding"
        emptyConversationData).completionPercentage = 44 ∧
    generateResponse (extractInformation "Emergency! My dishwasher is flooding"
        emptyConversationData) true =
      "I understand this is urgent. Let me get you scheduled quickly. What's your name and address?" ∧
    generateResponse (extractInformation "Emergency! My dishwasher is flooding"
        emptyConversationData) false =
      "I understand this is urgent. To get you scheduled quickly, please provide: your name, address, and best callback number." := by
  refine ⟨?_, by decide, by decide, by decide, by decide⟩
  simp [generateResponse, hu, hc]

/-- Claim C6, counterexample to the claim as stated: on the text channel the
urgent-path script does not ask for name and address only — it also asks for
the best callback number. -/
theorem C6_counterexample :
    generateResponse { emptyConversationData with preferredTime := some "urgent" } false =
      "I understand this is urgent. To get you scheduled quickly, please provide: your name, address, and best callback number." ∧
    strHas (generateResponse
      { emptyConversationData with preferredTime := some "urgent" } false)
      "best callback number" = true := by decide

/-- Claim C6, witness. -/
theorem C6_witness :
    generateResponse (extractInformation "Emergency! My dishwasher is flooding"
      emptyConversationData) true =
      handleUrgentCustomer (extractInformation "Emergency! My dishwasher is flooding"
        emptyConversationData) true :=
  (C6_urgent_precedence
    (extractInformation "Emergency! My dishwasher is flooding" emptyConversationData)
    true (by decide) (by decide)).1

/-- The voice summary, written out. -/
theorem summary_voice_eq (d : ConversationData) :
    generateSummaryResponse d true =
      "Perfect! I have " ++ jsStr d.customerName ++ " at " ++ jsStr d.streetAddress ++
      " for a " ++
      (if truthy d.applianceMake then jsStr d.applianceMake ++ " " ++ jsStr d.applianceType
        else jsStr d.applianceType) ++
      " that's " ++ formatIssueDescription d.issueDescription ++
      ". Our diagnostic fee is $89 which goes toward the repair. Most repairs are $150 to $300. Sound good?" := rfl

/-- The text summary, written out. -/
theorem summary_sms_eq (d : ConversationData) :
    generateSummaryResponse d false =
      "Perfect! Let me confirm:\n- Customer: " ++ jsStr d.customerName ++
      "\n- Address: " ++ jsStr d.streetAddress ++ ", " ++ jsStr d.city ++ " " ++
      jsStr d.zipCode ++ "\n- Appliance: " ++
      (if truthy d.applianceMake then jsStr d.applianceMake ++ " " ++ jsStr d.applianceType
        else jsStr d.applianceType) ++
      " - " ++ formatIssueDescription d.issueDescription ++ "\n- Time: " ++
      (if truthy d.preferredTime then jsStr d.preferredTime else "your preferred time") ++
      "\n- Diagnostic fee: $89 (goes toward repair)\n- Repair cost: Most repairs range $150-$300\n\nIs this correct?" := rfl

theorem ite_nil_truthy {b : Bool} {s : String}
    (h : (if b = true then ([] : List String) else [s]) = []) : b = true := by
  cases b
  · simp at h
  · rfl

/-- An empty missing list forces every required field to be present. -/
theorem missing_nil_present {d : ConversationData}
    (hm : getMissingInformation d = []) :
    truthy d.applianceType = true ∧ truthy d.issueDescription = true ∧
    truthy d.applianceMake = true ∧ truthy d.customerName = true ∧
    truthy d.streetAddress = true ∧ (truthy d.city && truthy d.zipCode) = true ∧
    truthy d.callbackNumber = true ∧ truthy d.preferredTime = true := by
  unfold getMissingInformation at hm
  simp only [List.append_eq_nil] at hm
  obtain ⟨⟨⟨⟨⟨⟨⟨h1, h2⟩, h3⟩, h4⟩, h5⟩, h6⟩, h7⟩, h8⟩ := hm
  exact ⟨ite_nil_truthy h1, ite_nil_truthy h2, ite_nil_truthy h3, ite_nil_truthy h4,
    ite_nil_truthy h5, ite_nil_truthy h6, ite_nil_truthy h7, ite_nil_truthy h8⟩

/-- Claim C5 (amended): with every required field present (empty missing
list) and the urgent branch not taken, `generateResponse` returns the
terminal summary on both channels. The text summary contains the customer
name, the address, the formatted issue phrase, the preferred time and the
pricing figures; the voice summary contains all of those except the
preferred time, which it omits. -/
theorem C5_summary_contents (d : ConversationData)
    (hm : getMissingInformation d = [])
    (hnu : ¬(d.preferredTime = some "urgent" ∧ d.completionPercentage < 50)) :
    generateResponse d true = generateSummaryResponse d true ∧
    generateResponse d false = generateSummaryResponse d false ∧
    strHas (generateSummaryResponse d true) (jsStr d.customerName) = true ∧
    strHas (generateSummaryResponse d true) (jsStr d.streetAddress) = true ∧
    strHas (generateSummaryResponse d true) (formatIssueDescription d.issueDescription) = true ∧
    strHas (generateSummaryResponse d true) "$89" = true ∧
    strHas (generateSummaryResponse d true) "$150" = true ∧
    strHas (generateSummaryResponse d true) "$300" = true ∧
    strHas (generateSummaryResponse d false) (jsStr d.customerName) = true ∧
    strHas (generateSummaryResponse d false) (jsStr d.streetAddress) = true ∧
    strHas (generateSummaryResponse d false) (formatIssueDescription d.issueDescription) = true ∧
    strHas (generateSummaryResponse d false) (jsStr d.preferredTime) = true ∧
    strHas (generateSummaryResponse d false) "$89" = true ∧
    strHas (generateSummaryResponse d false) "$150" = true ∧
    strHas (generateSummaryResponse d false) "$300" = true := by
  have hpt : truthy d.preferredTime = true := (missing_nil_present hm).2.2.2.2.2.2.2
  have hbr : ∀ isVoice, generateResponse d isVoice = generateSummaryResponse d isVoice := by
    intro isVoice
    have hb : (d.preferredTime == some "urgent" &&
        decide (d.completionPercentage < 50)) = false := by
      by_cases h1 : d.preferredTime = some "urgent"
      · have h2 : ¬d.completionPercentage < 50 := fun hlt => hnu ⟨h1, hlt⟩
        simp [h1, h2]
      · simp [h1]
    simp [generateResponse, hb, hm]
  refine ⟨hbr true, hbr false, ?_, ?_, ?_, ?_, ?_, ?_, ?_, ?_, ?_, ?_, ?_, ?_, ?_⟩
  · rw [summary_voice_eq]
    simp only [strHas, String.data_append, List.append_assoc]
    apply subL_append_left
    exact subL_of_startsL (startsL_append_self _ _)
  · rw [summary_voice_eq]
    simp only [strHas, String.data_append, List.append_assoc]
    iterate 3 apply subL_append_left
    exact subL_of_startsL (startsL_append_self _ _)
  · rw [summary_voice_eq]
    simp only [strHas, String.data_append, List.append_assoc]
    iterate 7 apply subL_append_left
    exact subL_of_startsL (startsL_append_self _ _)
  · rw [summary_voice_eq]
    simp only [strHas, String.data_append, List.append_assoc]
    iterate 8 apply subL_append_left
    decide
  · rw [summary_voice_eq]
    simp only [strHas, String.data_append, List.append_assoc]
    iterate 8 apply subL_append_left
    decide
  · rw [summary_voice_eq]
    simp only [strHas, String.data_append, List.append_assoc]
    iterate 8 apply subL_append_left
    decide
  · rw [summary_sms_eq]
    simp only [strHas, String.data_append, List.append_assoc]
    apply subL_append_left
    exact subL_of_startsL (startsL_append_self _ _)
  · rw [summary_sms_eq]
    simp only [strHas, String.data_append, List.append_assoc]
    iterate 3 apply subL_append_left
    exact subL_of_startsL (startsL_append_self _ _)
  · rw [summary_sms_eq]
    simp only [strHas, String.data_append, List.append_assoc]
    iterate 11 apply subL_append_left
    exact subL_of_startsL (startsL_append_self _ _)
  · rw [summary_sms_eq, hpt]
    simp only [if_true, strHas, String.data_append, List.append_assoc]
    iterate 13 apply subL_append_left
    exact subL_of_startsL (startsL_append_self _ _)
  · rw [summary_sms_eq]
    simp only [strHas, String.data_append, List.append_assoc]
    iterate 14 apply subL_append_left
    decide
  · rw [summary_sms_eq]
    simp only [strHas, String.data_append, List.append_assoc]
    iterate 14 apply subL_append_left
    decide
  · rw [summary_sms_eq]
    simp only [strHas, String.data_append, List.append_assoc]
    iterate 14 apply subL_append_left
    decide

/-- Claim C5, counterexample to the claim as stated: a complete slot set
(empty missing list) whose preferred time is `morning` gets a voice summary
that does not contain the preferred time — the voice wording omits it. -/
theorem C5_counterexample :
    getMissingInformation
      { applianceType := some "washer", issueDescription := some "leaking",
        applianceMake := some "Samsung", customerName := some "John Smith",
        streetAddress := some "100 Main St", city := some "Austin",
        zipCode := some "78701", callbackNumber := some "+15125551234",
        preferredTime := some "morning", lastConfirmation := none,
        issueLocation := none, completionPercentage := 100 } = [] ∧
    strHas (generateResponse
      { applianceType := some "washer", issueDescription := some "leaking",
        applianceMake := some "Samsung", customerName := some "John Smith",
        streetAddress := some "100 Main St", city := some "Austin",
        zipCode := some "78701", callbackNumber := some "+15125551234",
        preferredTime := some "morning", lastConfirmation := none,
        issueLocation := none, completionPercentage := 100 } true) "morning" = false := by
  decide

/-- Claim C5, witness. -/
theorem C5_witness :
    generateResponse
      { applianceType := some "washer", issueDescription := some "leaking",
        applianceMake := some "Samsung", customerName := some "John Smith",
        streetAddress := some "100 Main St", city := some "Austin",
        zipCode := some "78701", callbackNumber := some "+15125551234",
        preferredTime := some "morning", lastConfirmation := none,
        issueLocation := none, completionPercentage := 100 } false =
      generateSummaryResponse
        { applianceType := some "washer", issueDescription := some "leaking",
          applianceMake := some "Samsung", customerName := some "John Smith",
          streetAddress := some "100 Main St", city := some "Austin",
          zipCode := some "78701", callbackNumber := some "+15125551234",
          preferredTime := some "morning", lastConfirmation := none,
          issueLocation := none, completionPercentage := 100 } false :=
  (C5_summary_contents _ (by decide) (by decide)).2.1

/-- Claim C3 (amended): a reply whose lower-casing contains `what's your full
name` is never matched to any cached audio template unless the reply also
contains `$89`, `diagnostic fee` — or `repair`, the third pricing marker of
the pre-check: without all three markers the flow-prompt pre-check
short-circuits `findBestMatch` to no match for every audio cache. -/
theorem C3_flow_prompt_never_matched (reply : String) (cache : List (String × String))
    (hphrase : strHas (lowerStr reply) "what's your full name" = true)
    (h89 : strHas reply "$89" = false)
    (hdf : strHas reply "diagnostic fee" = false)
    (hrep : strHas reply "repair" = false) :
    ResponseAudioMatcher.findBestMatch reply cache = none := by
  have hlne : (lowerStr reply).data ≠ [] := subL_nonnil hphrase
  have hne : reply.data ≠ [] := by
    intro he
    apply hlne
    simp [lowerStr, he]
  have hA : reply.data.isEmpty = false := by simpa using hne
  have hflow : ResponseAudioMatcher.isConversationFlowResponse reply = true := by
    unfold ResponseAudioMatcher.isConversationFlowResponse
    have hB : (strHas reply "diagnostic fee" || strHas reply "$89" ||
        strHas reply "repair") = false := by simp [h89, hdf, hrep]
    simp only [hA, Bool.false_eq_true, if_false, hB]
    exact List.any_eq_true.mpr ⟨"what's your full name", by decide, hphrase⟩
  unfold ResponseAudioMatcher.findBestMatch
  by_cases hac : cache.isEmpty = true
  · simp [hac]
  · have hac2 : cache.isEmpty = false := by simpa using hac
    simp [hA, hac2, hflow]

/-- Claim C3, counterexample to the claim as stated: a reply containing
`what's your full name` together with the word `repair` — but neither `$89`
nor `diagnostic fee` — escapes the pre-check and is matched against the
cache (the `greeting_hurry_sms` keywords include `full name`). -/
theorem C3_counterexample :
    strHas (lowerStr "what's your full name for the repair")
      "what's your full name" = true ∧
    strHas "what's your full name for the repair" "$89" = false ∧
    strHas "what's your full name for the repair" "diagnostic fee" = false ∧
    ResponseAudioMatcher.findBestMatch "what's your full name for the repair"
      [("greeting_hurry_sms", "https://cdn/hurry.mp3")] ≠ none := by decide

/-- Claim C3, witness. -/
theorem C3_witness :
    ResponseAudioMatcher.findBestMatch "ok what's your full name"
      [("greeting", "https://cdn/greeting.mp3")] = none :=
  C3_flow_prompt_never_matched "ok what's your full name"
    [("greeting", "https://cdn/greeting.mp3")]
    (by decide) (by decide) (by decide) (by decide)

/-! ## Claim C2: signals required for a best match -/

/-- No keyword of the candidate occurs as a substring of the lower-cased
query (empty keywords never score). -/
def noKeywordHit (inputLower : String) (keywords : Option String) : Prop :=
  ∀ k ∈ faqKeywordList keywords, k.data.isEmpty = true ∨ strHas inputLower k = false

/-- No question word longer than three characters occurs in the query. -/
def noQuestionHit (inputLower : String) (question : Option String) : Prop :=
  ∀ w ∈ faqQuestionWords question, w.length ≤ 3 ∨ strHas inputLower w = false

theorem voice_keywordScore_zero {inputLower : String} {kw : Option String}
    (h : noKeywordHit inputLower kw) :
    IntelligentFAQMatcher.keywordScore inputLower kw = 0 := by
  unfold IntelligentFAQMatcher.keywordScore
  apply foldl_keep_of_no_hit
  intro k hk
  rcases h k hk with he | hs
  · simp [he]
  · simp [hs]

theorem sms_keywordScore_zero {inputLower : String} {kw : Option String}
    (h : noKeywordHit inputLower kw) :
    EnhancedSMSFAQMatcher.keywordScore inputLower kw = 0 := by
  unfold EnhancedSMSFAQMatcher.keywordScore
  apply foldl_keep_of_no_hit
  intro k hk
  rcases h k hk with he | hs
  · simp [he]
  · simp [hs]

theorem questionScore_zero {inputLower : String} {q : Option String}
    (h : noQuestionHit inputLower q) : questionScore inputLower q = 0 := by
  unfold questionScore
  apply foldl_keep_of_no_hit
  intro w hw
  rcases h w hw with hl | hs
  · have : ¬3 < w.length := not_lt.mpr hl
    simp [this]
  · simp [hs]

theorem voice_usageBonus_le_two (u : Nat) : IntelligentFAQMatcher.usageBonus u ≤ 2 := by
  unfold IntelligentFAQMatcher.usageBonus
  split
  · exact min_le_right _ _
  · norm_num

theorem voice_usageBonus_twenty {u : Nat}
    (h : 2 ≤ IntelligentFAQMatcher.usageBonus u) : 20 ≤ u := by
  unfold IntelligentFAQMatcher.usageBonus at h
  split at h
  · have hdiv : 2 ≤ (u : ℚ) / 10 := le_trans h (min_le_left _ _)
    have : (20 : ℚ) ≤ (u : ℚ) := by
      have := (le_div_iff₀ (by norm_num : (0 : ℚ) < 10)).mp hdiv
      linarith
    exact_mod_cast this
  · norm_num at h

theorem sms_usageBonus_fifteen {u : Nat}
    (h : 3 ≤ EnhancedSMSFAQMatcher.usageBonus u) : 15 ≤ u := by
  unfold EnhancedSMSFAQMatcher.usageBonus at h
  split at h
  · have hdiv : 3 ≤ (u : ℚ) / 5 := le_trans h (min_le_left _ _)
    have : (15 : ℚ) ≤ (u : ℚ) := by
      have := (le_div_iff₀ (by norm_num : (0 : ℚ) < 5)).mp hdiv
      linarith
    exact_mod_cast this
  · norm_num at h

theorem sms_lengthPenalty_nonneg (r : Option String) :
    0 ≤ EnhancedSMSFAQMatcher.lengthPenalty r := by
  unfold EnhancedSMSFAQMatcher.lengthPenalty
  split <;> norm_num

/-- The first element of the sorted match list is one of the scored
candidates, carrying its own score. -/
theorem sorted_top_spec {faqs : List FAQ} {score : FAQ → ℚ} {m0 : ScoredFAQ}
    {rest : List ScoredFAQ}
    (hs : sortDesc (fun m => m.score) (faqs.filterMap (fun f =>
        if 0 < score f then some (ScoredFAQ.mk f (score f)) else none)) = m0 :: rest) :
    m0.faq ∈ faqs ∧ m0.score = score m0.faq := by
  have hmem : m0 ∈ sortDesc (fun m => m.score) (faqs.filterMap (fun f =>
      if 0 < score f then some (ScoredFAQ.mk f (score f)) else none)) := by
    rw [hs]
    exact List.mem_cons_self _ _
  rw [mem_sortDesc] at hmem
  obtain ⟨f0, hf0, heq⟩ := List.mem_filterMap.mp hmem
  by_cases h0 : 0 < score f0
  · rw [if_pos h0] at heq
    obtain rfl := Option.some.inj heq
    exact ⟨hf0, rfl⟩
  · rw [if_neg h0] at heq
    exact absurd heq (by simp)

theorem voice_best_needs_signal {faqs : List FAQ} {input : String} {m : ScoredFAQ}
    (hfind : IntelligentFAQMatcher.findBestMatch faqs input = some m)
    (hkw : noKeywordHit (lowerStr input) m.faq.keywords)
    (hqw : noQuestionHit (lowerStr input) m.faq.question) :
    20 ≤ m.faq.usage_count := by
  unfold IntelligentFAQMatcher.findBestMatch at hfind
  by_cases hg : (faqs.isEmpty || input.data.isEmpty) = true
  · simp [hg] at hfind
  · have hg2 : (faqs.isEmpty || input.data.isEmpty) = false := by simpa using hg
    simp only [hg2, Bool.false_eq_true, if_false] at hfind
    split at hfind
    next m0 rest heq =>
      split at hfind
      next hth =>
        obtain rfl := Option.some.inj hfind
        obtain ⟨hmem, hscore⟩ := sorted_top_spec heq
        rw [hscore] at hth
        unfold IntelligentFAQMatcher.faqScore at hth
        rw [voice_keywordScore_zero hkw, questionScore_zero hqw] at hth
        simp only [zero_add] at hth
        exact voice_usageBonus_twenty hth
      next => simp at hfind
    next => simp at hfind

theorem db_best_needs_signal {faqs : List FAQ} {query : String} {m : ScoredFAQ}
    (hfind : DatabaseWorker.getFAQMatch faqs query = some m)
    (hkw : noKeywordHit (lowerStr query) m.faq.keywords)
    (hqw : noQuestionHit (lowerStr query) m.faq.question) :
    20 ≤ m.faq.usage_count := by
  unfold DatabaseWorker.getFAQMatch at hfind
  by_cases hg : faqs.isEmpty = true
  · simp [hg] at hfind
  · have hg2 : faqs.isEmpty = false := by simpa using hg
    simp only [hg2, Bool.false_eq_true, if_false] at hfind
    split at hfind
    next m0 rest heq =>
      split at hfind
      next hth =>
        obtain rfl := Option.some.inj hfind
        obtain ⟨hmem, hscore⟩ := sorted_top_spec heq
        rw [hscore] at hth
        unfold IntelligentFAQMatcher.faqScore at hth
        rw [voice_keywordScore_zero hkw, questionScore_zero hqw] at hth
        simp only [zero_add] at hth
        exact voice_usageBonus_twenty hth
      next => simp at hfind
    next => simp at hfind

theorem sms_best_needs_signal {faqs : List FAQ} {input : String} {m : ScoredFAQ}
    (hfind : EnhancedSMSFAQMatcher.findBestMatch faqs input = some m)
    (hkw : noKeywordHit (lowerStr input) m.faq.keywords)
    (hqw : noQuestionHit (lowerStr input) m.faq.question) :
    15 ≤ m.faq.usage_count := by
  unfold EnhancedSMSFAQMatcher.findBestMatch at hfind
  by_cases hg : (faqs.isEmpty || input.data.isEmpty) = true
  · simp [hg] at hfind
  · have hg2 : (faqs.isEmpty || input.data.isEmpty) = false := by simpa using hg
    simp only [hg2, Bool.false_eq_true, if_false] at hfind
    split at hfind
    next m0 rest heq =>
      split at hfind
      next hth =>
        obtain rfl := Option.some.inj hfind
        obtain ⟨hmem, hscore⟩ := sorted_top_spec heq
        rw [hscore] at hth
        unfold EnhancedSMSFAQMatcher.faqScore at hth
        rw [sms_keywordScore_zero hkw, questionScore_zero hqw] at hth
        simp only [zero_add] at hth
        have hpen := sms_lengthPenalty_nonneg m0.faq.response
        have hb : 3 ≤ EnhancedSMSFAQMatcher.usageBonus m0.faq.usage_count := by linarith
        exact sms_usageBonus_fifteen hb
      next => simp at hfind
    next => simp at hfind

/-- Claim C2 (amended): in each FAQ-matcher instantiation, a candidate none
of whose keywords occurs in the lower-cased query and none of whose long
question words occurs is returned as best match only when its usage bonus
alone reaches the minimum-score threshold — usage count at least 20 for the
voice and database matchers (bonus cap 2 = threshold) and at least 15 for
the SMS matcher (bonus cap 3 = threshold). The bonus can therefore cross the
threshold on its own, contrary to the claim as stated. -/
theorem C2_usage_bonus_reaches_threshold :
    (∀ (faqs : List FAQ) (input : String) (m : ScoredFAQ),
      IntelligentFAQMatcher.findBestMatch faqs input = some m →
      noKeywordHit (lowerStr input) m.faq.keywords →
      noQuestionHit (lowerStr input) m.faq.question → 20 ≤ m.faq.usage_count) ∧
    (∀ (faqs : List FAQ) (query : String) (m : ScoredFAQ),
      DatabaseWorker.getFAQMatch faqs query = some m →
      noKeywordHit (lowerStr query) m.faq.keywords →
      noQuestionHit (lowerStr query) m.faq.question → 20 ≤ m.faq.usage_count) ∧
    (∀ (faqs : List FAQ) (input : String) (m : ScoredFAQ),
      EnhancedSMSFAQMatcher.findBestMatch faqs input = some m →
      noKeywordHit (lowerStr input) m.faq.keywords →
      noQuestionHit (lowerStr input) m.faq.question → 15 ≤ m.faq.usage_count) :=
  ⟨fun _ _ _ hf hk hq => voice_best_needs_signal hf hk hq,
   fun _ _ _ hf hk hq => db_best_needs_signal hf hk hq,
   fun _ _ _ hf hk hq => sms_best_needs_signal hf hk hq⟩

/-- Claim C2, counterexample to the claim as stated: a candidate with no
keywords at all (so none occurs in the query) and no question text is
returned by the voice matcher on its usage bonus alone — usage count 20
gives bonus `min(20/10, 2) = 2`, which meets the threshold 2. -/
theorem C2_counterexample :
    IntelligentFAQMatcher.findBestMatch [⟨1, none, none, none, 20⟩] "hello" =
      some ⟨⟨1, none, none, none, 20⟩, 2⟩ := by
  have hscore : IntelligentFAQMatcher.faqScore (lowerStr "hello")
      ⟨1, none, none, none, 20⟩ = 2 := by
    simp only [IntelligentFAQMatcher.faqScore, IntelligentFAQMatcher.keywordScore,
      questionScore, IntelligentFAQMatcher.usageBonus, faqKeywordList, faqQuestionWords,
      truthy]
    norm_num
  simp only [IntelligentFAQMatcher.findBestMatch, List.filterMap, hscore]
  norm_num [sortDesc, insDesc]

/-- Claim C2, witness. -/
theorem C2_witness :
    IntelligentFAQMatcher.findBestMatch [⟨2, none, none, none, 25⟩] "hi there" =
      some ⟨⟨2, none, none, none, 25⟩, 2⟩ ∧ 20 ≤ 25 := by
  have hscore : IntelligentFAQMatcher.faqScore (lowerStr "hi there")
      ⟨2, none, none, none, 25⟩ = 2 := by
    simp only [IntelligentFAQMatcher.faqScore, IntelligentFAQMatcher.keywordScore,
      questionScore, IntelligentFAQMatcher.usageBonus, faqKeywordList, faqQuestionWords,
      truthy]
    norm_num [min_def]
  have hfind : IntelligentFAQMatcher.findBestMatch [⟨2, none, none, none, 25⟩]
      "hi there" = some ⟨⟨2, none, none, none, 25⟩, 2⟩ := by
    simp only [IntelligentFAQMatcher.findBestMatch, List.filterMap, hscore]
    norm_num [sortDesc, insDesc]
  refine ⟨hfind, ?_⟩
  exact C2_usage_bonus_reaches_threshold.1 [⟨2, none, none, none, 25⟩] "hi there"
    ⟨⟨2, none, none, none, 25⟩, 2⟩ hfind
    (by intro k hk; simp [faqKeywordList, truthy] at hk)
    (by intro w hw; simp [faqQuestionWords, truthy] at hw)

theorem insDesc_length {α β : Type} [LinearOrder β] (key : α → β) (a : α) :
    ∀ l : List α, (insDesc key a l).length = l.length + 1 := by
  intro l
  induction l with
  | nil => simp [insDesc]
  | cons b t ih =>
      by_cases hb : key b < key a
      · simp [insDesc, hb]
      · simp [insDesc, hb, ih]

theorem sortDesc_length {α β : Type} [LinearOrder β] (key : α → β) :
    ∀ l : List α, (sortDesc key l).length = l.length := by
  intro l
  induction l with
  | nil => simp [sortDesc]
  | cons a t ih => simp [sortDesc, insDesc_length, ih]

/-- Claim C9: `getConversationState` never fails the turn. With a working
store it returns the most-recently-updated active record of the pair when
one exists and otherwise creates and returns a fresh record with empty
slots, step `greeting`, active flag set and expiry 24 hours out; when the
store raises (during the fetch or the insert) it returns the transient
in-memory default with empty slots, step `greeting`, active flag set. -/
theorem C9_get_conversation_state (store : List StateRec) (org phone : String)
    (now : Nat) :
    ((∃ r ∈ store, stateMatches org phone r = true) →
      (getConversationState store org phone now false false) ∈ store ∧
      stateMatches org phone (getConversationState store org phone now false false) = true ∧
      ∀ r ∈ store, stateMatches org phone r = true →
        r.updated_at ≤ (getConversationState store org phone now false false).updated_at) ∧
    ((∀ r ∈ store, stateMatches org phone r = false) →
      getConversationState store org phone now false false =
        newConversationState org phone now) ∧
    (∀ createRaises, getConversationState store org phone now true createRaises =
      fallbackState) ∧
    ((∀ r ∈ store, stateMatches org phone r = false) →
      getConversationState store org phone now false true = fallbackState) ∧
    (newConversationState org phone now).conversation_data = emptyConversationData ∧
    (newConversationState org phone now).current_step = "greeting" ∧
    (newConversationState org phone now).is_active = true ∧
    (newConversationState org phone now).expires_at = now + 24 * 60 * 60 * 1000 ∧
    fallbackState.conversation_data = emptyConversationData ∧
    fallbackState.current_step = "greeting" ∧
    fallbackState.is_active = true := by
  have hfilnil : (∀ r ∈ store, stateMatches org phone r = false) →
      store.filter (stateMatches org phone) = [] := by
    intro hnone
    refine List.filter_eq_nil_iff.mpr ?_
    intro a ha
    simp [hnone a ha]
  refine ⟨?_, ?_, fun _ => rfl, ?_, rfl, rfl, rfl, rfl, rfl, rfl, rfl⟩
  · rintro ⟨r, hr, hm⟩
    have hrf : r ∈ store.filter (stateMatches org phone) := List.mem_filter.mpr ⟨hr, hm⟩
    cases hs : sortDesc (fun r => r.updated_at) (store.filter (stateMatches org phone)) with
    | nil =>
        exfalso
        have hlen := sortDesc_length (fun r : StateRec => r.updated_at)
          (store.filter (stateMatches org phone))
        rw [hs] at hlen
        rw [List.eq_nil_of_length_eq_zero hlen.symm] at hrf
        simp at hrf
    | cons m0 rest =>
        have hres : getConversationState store org phone now false false = m0 := by
          unfold getConversationState fetchStates
          rw [hs]
          rfl
        rw [hres]
        have hm0f : m0 ∈ store.filter (stateMatches org phone) := by
          have hmem : m0 ∈ sortDesc (fun r => r.updated_at)
              (store.filter (stateMatches org phone)) := by
            rw [hs]
            exact List.mem_cons_self _ _
          exact (mem_sortDesc _ _ _).mp hmem
        obtain ⟨hm0s, hm0m⟩ := List.mem_filter.mp hm0f
        refine ⟨hm0s, hm0m, ?_⟩
        intro r2 hr2 hm2
        exact sortDesc_head_ge _ hs r2 (List.mem_filter.mpr ⟨hr2, hm2⟩)
  · intro hnone
    unfold getConversationState fetchStates
    rw [hfilnil hnone]
    rfl
  · intro hnone
    unfold getConversationState fetchStates
    rw [hfilnil hnone]
    rfl

/-- Claim C9, witness. -/
theorem C9_witness :
    getConversationState
      [⟨"org1", "+15550001111", emptyConversationData, "collecting", true, 99, 10, 42⟩]
      "org1" "+15550001111" 1000 false false =
      ⟨"org1", "+15550001111", emptyConversationData, "collecting", true, 99, 10, 42⟩ ∧
    getConversationState [] "org1" "+15550001111" 1000 false false =
      newConversationState "org1" "+15550001111" 1000 := by
  constructor
  · have h := (C9_get_conversation_state
      [⟨"org1", "+15550001111", emptyConversationData, "collecting", true, 99, 10, 42⟩]
      "org1" "+15550001111" 1000).1
      ⟨⟨"org1", "+15550001111", emptyConversationData, "collecting", true, 99, 10, 42⟩,
        by simp, by decide⟩
    exact List.mem_singleton.mp h.1
  · exact (C9_get_conversation_state [] "org1" "+15550001111" 1000).2.1
      (by intro r hr; simp at hr)
